import Mathlib

/-!
Verification of the investigation engine's state model, director, LLM gateway,
fetcher, JSON repair and graph-store allowlisting, as a shallow embedding of
the Python sources (src/models.py, src/agents/research_director.py,
src/llm_client.py, src/agents/fact_extractor.py, src/tools/search.py,
src/graph_db/neo4j_client.py).

Conventions of the embedding:
- Python `str` is Lean `String` (operations are ASCII-faithful; all
  concrete inputs are ASCII).
- Python `float` is `ℚ` (exact arithmetic; the comparisons proved here are
  far from rounding boundaries).
- Python `dict[str, str]` is an association list with `dict.update`
  semantics (`dictInsert` replaces in place, else appends).
- Python `list(set(a + b))` has unspecified order; it is embedded as
  `(a ++ b).dedup` and all statements about it are membership statements,
  which are order-independent.
-/

namespace Invest

/-- Python whitespace for `str.strip` (ASCII subset). -/
def pyWs (c : Char) : Bool :=
  c = ' ' || c = '\t' || c = '\n' || c = '\r' || c = '\x0b' || c = '\x0c'

/-- Python `str.strip()` on a character list. -/
def pyStripL (l : List Char) : List Char :=
  ((l.dropWhile pyWs).reverse.dropWhile pyWs).reverse

/-- Python `str.strip()`. -/
def pyStrip (s : String) : String :=
  ⟨pyStripL s.data⟩

/-- Python `str.lower()` (ASCII). -/
def pyLower (s : String) : String :=
  ⟨s.data.map Char.toLower⟩

/-- Python `name.lower().strip()`, the case-fold used throughout the state model. -/
def foldName (s : String) : String :=
  pyStrip (pyLower s)

/-- Entity types (src/models.py `EntityType`). -/
inductive EntityType where
  | person
  | organization
  | location
  | event
  | document
  | financialInstrument
deriving DecidableEq

/-- Association-list lookup with first-match semantics (Python dict access). -/
def dictLookup : List (String × String) → String → Option String
  | [], _ => none
  | p :: rest, k => if p.1 == k then some p.2 else dictLookup rest k

/-- One step of Python `dict.update`: set key `k` to `v`, replacing in place. -/
def dictInsert (d : List (String × String)) (k v : String) : List (String × String) :=
  if d.any (fun p => p.1 == k) then
    d.map (fun p => if p.1 == k then (k, v) else p)
  else
    d ++ [(k, v)]

/-- Python `a.update(b)` on string dicts. -/
def dictUpdate (a b : List (String × String)) : List (String × String) :=
  b.foldl (fun acc p => dictInsert acc p.1 p.2) a

/-- Entity (src/models.py `Entity`); only the fields the claims touch. -/
structure Entity where
  id : String
  name : String
  entityType : EntityType
  aliases : List String
  attributes : List (String × String)
  sourceUrls : List String
  confidence : ℚ
  description : String
deriving DecidableEq

/-- The per-entity test of `ResearchState.find_entity_by_name`: the entity's
name is truthy and case-folds to the probe, or the probe case-folds to one of
its aliases. `nameLower` is the already-folded probe. -/
def entityMatches (nameLower : String) (e : Entity) : Bool :=
  (e.name ≠ "" && foldName e.name == nameLower) ||
    (e.aliases.map foldName).contains nameLower

/-- `ResearchState.find_entity_by_name` over the entity list. -/
def findEntityByName (es : List Entity) (name : String) : Option Entity :=
  es.find? (entityMatches (foldName name))

/-- The in-place merge performed by `ResearchState.add_entity` when an
existing entity matches: confidence max, source/alias set-union,
`attributes.update`; all other fields (id, name, type, description) of the
existing entity are untouched. -/
def mergeEntity (ex e : Entity) : Entity :=
  { ex with
    confidence := max ex.confidence e.confidence
    sourceUrls := (ex.sourceUrls ++ e.sourceUrls).dedup
    aliases := (ex.aliases ++ e.aliases).dedup
    attributes := dictUpdate ex.attributes e.attributes }

/-- `ResearchState.add_entity` with `fuzzy_threshold = None`: merge into the
first matching entity in place, else append. -/
def addEntity (es : List Entity) (e : Entity) : List Entity :=
  match es with
  | [] => [e]
  | ex :: rest =>
    if entityMatches (foldName e.name) ex then
      mergeEntity ex e :: rest
    else
      ex :: addEntity rest e

/-- Number of entities in the state with the given type and case-folded name. -/
def countMatching (es : List Entity) (t : EntityType) (n : String) : Nat :=
  es.countP (fun x => x.entityType == t && foldName x.name == n)

-- Concrete entities used to instantiate the dedup statements.

def c1wE1 : Entity :=
  ⟨"a1", "Acme Corp", EntityType.organization, [], [("hq", "NY")], ["http://a.com"], 1/2, ""⟩

def c1wE2 : Entity :=
  ⟨"a2", "acme corp", EntityType.organization, ["AC"], [("ceo", "J")], ["http://b.com"], 9/10, "d"⟩

def c1xOrg : Entity :=
  ⟨"x1", "acme", EntityType.organization, [], [], [], 1/2, ""⟩

def c1xP1 : Entity :=
  ⟨"x2", "Acme", EntityType.person, [], [("k", "1")], [], 1/2, ""⟩

def c1xP2 : Entity :=
  ⟨"x3", "acme", EntityType.person, [], [("k", "2")], [], 7/10, ""⟩

def c9xA : Entity :=
  ⟨"d1", "acme", EntityType.person, [], [("k", "1")], [], 1/2, ""⟩

def c9xB : Entity :=
  ⟨"d2", "Acme", EntityType.person, [], [("k", "2")], [], 1/2, "Founder biography"⟩

def c9wEx : Entity :=
  ⟨"d3", "Widget Co", EntityType.organization, [], [], [], 1/2, ""⟩

def c9wE : Entity :=
  ⟨"d4", "widget co", EntityType.organization, [], [("a", "b")], ["http://w.com"], 3/4, "Org"⟩

def c10xA : Entity :=
  ⟨"t1", "", EntityType.person, [], [], [], 1/2, ""⟩

def c10xB : Entity :=
  ⟨"t2", "", EntityType.organization, [], [], [], 1/2, ""⟩

def c10wEx : Entity :=
  ⟨"t3", "Jane", EntityType.person, [], [], [], 1/2, ""⟩

def c10wE : Entity :=
  ⟨"t4", "jane", EntityType.organization, [], [], [], 1/2, ""⟩

-- ── LLM gateway (src/llm_client.py) ──

/-- Providers (`ModelProvider`). -/
inductive ModelProvider where
  | claude
  | openai
  | gemini
deriving DecidableEq

/-- `COST_PER_1K[provider]["input"]`. -/
def costPer1KInput : ModelProvider → ℚ
  | .claude => 3/1000
  | .openai => 2/1000
  | .gemini => 125/100000

/-- `COST_PER_1K[provider]["output"]`. -/
def costPer1KOutput : ModelProvider → ℚ
  | .claude => 15/1000
  | .openai => 8/1000
  | .gemini => 5/1000

/-- `_estimate_cost(provider, input_len, output_len)`: chars/4 tokens, per-1K rates. -/
def estimateCost (p : ModelProvider) (inputLen outputLen : ℚ) : ℚ :=
  (inputLen / 4) / 1000 * costPer1KInput p + (outputLen / 4) / 1000 * costPer1KOutput p

/-- `LLMClient._check_budget`: `true` means it raises `BudgetExhaustedError`.
The call estimate assumes 8000 output chars. -/
def checkBudgetRaises (budgetUsd totalCost : ℚ) (p : ModelProvider) (inputLen : ℚ) : Bool :=
  if budgetUsd ≤ 0 then false
  else decide (totalCost + estimateCost p inputLen 8000 > budgetUsd)

/-- `startsWithL hay needle`: `needle` is a leading run of `hay`. -/
def startsWithL : List Char → List Char → Bool
  | _, [] => true
  | [], _ :: _ => false
  | h :: t, n :: ns => h == n && startsWithL t ns

/-- Substring search on character lists. -/
def containsSubL (needle : List Char) : List Char → Bool
  | [] => startsWithL [] needle
  | c :: t => startsWithL (c :: t) needle || containsSubL needle t

/-- Python `needle in hay` on strings. -/
def containsSub (hay needle : String) : Bool :=
  containsSubL needle.data hay.data

/-- Outcome of `_classify_error`: `TransientError` or `PermanentError`. -/
inductive ErrClass where
  | transient
  | permanent
deriving DecidableEq

/-- `_classify_error`, a pure function of the lowercased message, checking
the transient markers first, then the permanent markers, defaulting to
transient. -/
def classifyError (msg : String) : ErrClass :=
  let m := pyLower msg
  if containsSub m "rate" || containsSub m "429" || containsSub m "503" ||
      containsSub m "500" then
    ErrClass.transient
  else if containsSub m "timeout" || containsSub m "connection" ||
      containsSub m "reset" then
    ErrClass.transient
  else if containsSub m "401" || containsSub m "403" || containsSub m "invalid" ||
      containsSub m "api key" then
    ErrClass.permanent
  else if containsSub m "expired" || containsSub m "400" || containsSub m "malformed" ||
      containsSub m "schema" then
    ErrClass.permanent
  else
    ErrClass.transient

/-- The spec's transient substrings, grouped as the two code checks group them. -/
def hasTransientMarker (m : String) : Bool :=
  (containsSub m "rate" || containsSub m "429" || containsSub m "503" ||
    containsSub m "500") ||
  (containsSub m "timeout" || containsSub m "connection" || containsSub m "reset")

/-- The spec's permanent substrings, grouped as the two code checks group them. -/
def hasPermanentMarker (m : String) : Bool :=
  (containsSub m "401" || containsSub m "403" || containsSub m "invalid" ||
    containsSub m "api key") ||
  (containsSub m "expired" || containsSub m "400" || containsSub m "malformed" ||
    containsSub m "schema")

-- ── Research Director (src/agents/research_director.py) ──

/-- `SearchPhase`. -/
inductive SearchPhase where
  | baseline
  | breadth
  | depth
  | adversarial
  | triangulation
  | synthesis
deriving DecidableEq

/-- `AgentAction`. -/
inductive AgentAction where
  | searchWeb
  | extractFacts
  | analyzeRisks
  | mapConnections
  | verifySources
  | updateGraph
  | generateReport
  | terminate
deriving DecidableEq

/-- `SearchPhase.value` strings. -/
def phaseValue : SearchPhase → String
  | .baseline => "baseline"
  | .breadth => "breadth"
  | .depth => "depth"
  | .adversarial => "adversarial"
  | .triangulation => "triangulation"
  | .synthesis => "synthesis"

/-- `SubjectProfile`; only the fields the director reads. -/
structure SubjectProfile where
  fullName : String
  currentRole : Option String
  currentOrganization : Option String
deriving DecidableEq

/-- `SearchRecord`; only the fields the director reads. -/
structure SearchRecord where
  query : String
  provider : String
deriving DecidableEq

/-- `DirectorDecision`. -/
structure DirectorDecision where
  reasoning : String
  nextAction : AgentAction
  searchQueries : List String
  targetEntityIds : List String
  currentPhase : SearchPhase
  confidenceInCompleteness : ℚ
  gapsIdentified : List String
deriving DecidableEq

/-- The slice of `ResearchState` read by `plan_next_step` and
`_fallback_decision`. -/
structure ResearchState where
  subject : SubjectProfile
  entities : List Entity
  searchHistory : List SearchRecord
  currentPhase : SearchPhase
  iteration : Int
  maxIterations : Int
  entitiesAddedPerIteration : List Int
  overallConfidence : ℚ
deriving DecidableEq

/-- `ResearchState.get_search_queries_used` (a set in Python; queries are
folded, membership is what matters). -/
def getSearchQueriesUsed (st : ResearchState) : List String :=
  st.searchHistory.map (fun r => foldName r.query)

/-- Python `x or ''` on an optional string. -/
def optionOrEmpty : Option String → String
  | none => ""
  | some s => s

/-- The three baseline candidate queries built by `_fallback_decision` on
iteration ≤ 1. -/
def baselineCandidates (st : ResearchState) : List String :=
  [pyStrip (st.subject.fullName ++ " " ++ optionOrEmpty st.subject.currentOrganization),
   st.subject.fullName ++ " LinkedIn background",
   st.subject.fullName ++ " biography"]

/-- The `phase_keywords` table, with the `.get` default for phases not in
the dict (synthesis). -/
def phaseKeywords : SearchPhase → List String
  | .baseline => ["career history", "education"]
  | .breadth => ["SEC filings", "board memberships"]
  | .depth => ["controversy", "legal disputes"]
  | .adversarial => ["lawsuit", "fraud allegations"]
  | .triangulation => ["interview quotes", "public statements"]
  | .synthesis => ["news", "profile"]

/-- The iteration ≤ 1 fallback queries: the filtered baseline candidates
capped at 2, backstopped by `candidates[:1]` when every candidate was used. -/
def fallbackQueriesIter1 (st : ResearchState) : List String :=
  if ((baselineCandidates st).filter
      (fun q => !((getSearchQueriesUsed st).contains (foldName q)))).take 2 = [] then
    (baselineCandidates st).take 1
  else
    ((baselineCandidates st).filter
      (fun q => !((getSearchQueriesUsed st).contains (foldName q)))).take 2

/-- Later-iteration fallback, first attempt: subject name combined with up to
three discovered entity names, filtered against used queries. -/
def fallbackEntityQueries (st : ResearchState) : List String :=
  ((((st.entities.take 5).map (fun e => e.name)).take 3).map
      (fun n => st.subject.fullName ++ " " ++ n)).filter
    (fun q => !((getSearchQueriesUsed st).contains (foldName q)))

/-- Later-iteration fallback, second attempt: phase-appropriate keyword
queries, filtered and capped at 2. -/
def fallbackKeywordQueries (st : ResearchState) : List String :=
  (((phaseKeywords st.currentPhase).map
      (fun kw => st.subject.fullName ++ " " ++ kw)).filter
    (fun q => !((getSearchQueriesUsed st).contains (foldName q)))).take 2

/-- The later-iteration fallback queries: entity queries, else keywords. -/
def fallbackLaterQueries (st : ResearchState) : List String :=
  if fallbackEntityQueries st = [] then fallbackKeywordQueries st
  else fallbackEntityQueries st

/-- `ResearchDirector._fallback_decision`. -/
def fallbackDecision (st : ResearchState) : DirectorDecision :=
  if st.iteration ≤ 1 then
    { reasoning := "Fallback: Initial baseline search for subject"
      nextAction := .searchWeb
      searchQueries := fallbackQueriesIter1 st
      targetEntityIds := []
      currentPhase := .baseline
      confidenceInCompleteness := 0
      gapsIdentified := ["Everything — this is the first search"] }
  else if st.iteration ≥ st.maxIterations - 1 then
    { reasoning := "Fallback: Approaching max iterations, generating report"
      nextAction := .generateReport
      searchQueries := []
      targetEntityIds := []
      currentPhase := .synthesis
      confidenceInCompleteness := st.overallConfidence
      gapsIdentified := [] }
  else if fallbackLaterQueries st = [] then
    { reasoning := "Fallback: All fallback queries already used, generating report"
      nextAction := .generateReport
      searchQueries := []
      targetEntityIds := []
      currentPhase := .synthesis
      confidenceInCompleteness := st.overallConfidence
      gapsIdentified := [] }
  else
    { reasoning := "Fallback: Exploring discovered entities or phase-appropriate queries"
      nextAction := .searchWeb
      searchQueries := fallbackLaterQueries st
      targetEntityIds := []
      currentPhase := st.currentPhase
      confidenceInCompleteness := min (st.overallConfidence + 1/20) (1/2)
      gapsIdentified := [] }

/-- The JSON object `_parse_decision` reads, field by field; `none` means the
key is absent (`dict.get` default applies). -/
structure ParsedPlan where
  reasoning : Option String
  nextAction : Option String
  currentPhase : Option String
  searchQueries : List String
  targetEntityIds : List String
  confidence : Option ℚ
  gaps : List String
deriving DecidableEq

/-- The `action_map` of `_parse_decision` (note: no entry for `update_graph`). -/
def actionFromStr (s : String) : Option AgentAction :=
  if s = "search_web" then some .searchWeb
  else if s = "extract_facts" then some .extractFacts
  else if s = "analyze_risks" then some .analyzeRisks
  else if s = "map_connections" then some .mapConnections
  else if s = "verify_sources" then some .verifySources
  else if s = "generate_report" then some .generateReport
  else if s = "terminate" then some .terminate
  else none

/-- The `phase_map` of `_parse_decision` (`{p.value: p for p in SearchPhase}`). -/
def phaseFromStr (s : String) : Option SearchPhase :=
  if s = "baseline" then some .baseline
  else if s = "breadth" then some .breadth
  else if s = "depth" then some .depth
  else if s = "adversarial" then some .adversarial
  else if s = "triangulation" then some .triangulation
  else if s = "synthesis" then some .synthesis
  else none

/-- `ResearchDirector._parse_decision` on an already-decoded JSON object
(decode failure is routed to `fallbackDecision` by the caller model). -/
def parseDecision (d : ParsedPlan) (st : ResearchState) : DirectorDecision :=
  let actionStr := pyLower (d.nextAction.getD "search_web")
  let nextAction := (actionFromStr actionStr).getD AgentAction.searchWeb
  let phaseStr := pyLower (d.currentPhase.getD (phaseValue st.currentPhase))
  let currentPhase := (phaseFromStr phaseStr).getD st.currentPhase
  let used := getSearchQueriesUsed st
  let newQueries := d.searchQueries.filter (fun q => !(used.contains (foldName q)))
  { reasoning := d.reasoning.getD "No reasoning provided"
    nextAction := nextAction
    searchQueries := newQueries.take 5
    targetEntityIds := d.targetEntityIds
    currentPhase := currentPhase
    confidenceInCompleteness := d.confidence.getD 0
    gapsIdentified := d.gaps }

/-- Outcome of the gateway call made by `plan_next_step`: a decoded JSON
plan, a response whose JSON decode fails, `BudgetExhaustedError`, or any
other exception. -/
inductive PlanOutcome where
  | success (d : ParsedPlan)
  | parseFailure
  | budgetExhausted (msg : String)
  | failure
deriving DecidableEq

/-- The agent settings `plan_next_step` reads (src/config.py defaults: 2, 2). -/
structure AgentSettings where
  diminishingReturnsLookbackIterations : Int
  diminishingReturnsMinEntities : Int
deriving DecidableEq

/-- Result of one `plan_next_step` call: the decision, the updated
consecutive-failure counter, and whether the LLM was called. -/
structure PlanResult where
  decision : DirectorDecision
  consecutiveFailures : Nat
  llmCalled : Bool
deriving DecidableEq

/-- The body of `plan_next_step` past the three guard clauses: the LLM call
with its exception handling. -/
def planViaLLM (failures : Nat) (st : ResearchState) (llm : PlanOutcome) : PlanResult :=
  match llm with
  | .success d =>
    { decision := parseDecision d st, consecutiveFailures := 0, llmCalled := true }
  | .parseFailure =>
    { decision := fallbackDecision st, consecutiveFailures := 0, llmCalled := true }
  | .budgetExhausted msg =>
    { decision :=
        { reasoning := "Cost budget exhausted: " ++ msg ++
            ". Generating report with current findings."
          nextAction := .generateReport
          searchQueries := []
          targetEntityIds := []
          currentPhase := .synthesis
          confidenceInCompleteness := st.overallConfidence
          gapsIdentified := [] }
      consecutiveFailures := failures
      llmCalled := true }
  | .failure =>
    { decision := fallbackDecision st, consecutiveFailures := failures + 1, llmCalled := true }

/-- `ResearchDirector.plan_next_step`: hard iteration limit, persistent
failure limit (3), diminishing-returns guard, then the LLM call. -/
def planNextStep (settings : AgentSettings) (failures : Nat) (st : ResearchState)
    (llm : PlanOutcome) : PlanResult :=
  if st.iteration ≥ st.maxIterations then
    { decision :=
        { reasoning := "Maximum iterations reached. Moving to synthesis."
          nextAction := .generateReport
          searchQueries := []
          targetEntityIds := []
          currentPhase := .synthesis
          confidenceInCompleteness := st.overallConfidence
          gapsIdentified := [] }
      consecutiveFailures := failures
      llmCalled := false }
  else if failures ≥ 3 then
    { decision :=
        { reasoning := "LLM provider failed " ++ toString failures ++
            " consecutive times. Check API keys and provider status. " ++
            "Generating report with whatever findings exist."
          nextAction := .generateReport
          searchQueries := []
          targetEntityIds := []
          currentPhase := .synthesis
          confidenceInCompleteness := st.overallConfidence
          gapsIdentified := [] }
      consecutiveFailures := failures
      llmCalled := false }
  else
    if settings.diminishingReturnsLookbackIterations > 0 ∧
        (st.entitiesAddedPerIteration.length : Int) ≥
          settings.diminishingReturnsLookbackIterations ∧
        (st.entitiesAddedPerIteration.drop
            (st.entitiesAddedPerIteration.length -
              settings.diminishingReturnsLookbackIterations.toNat)).all
          (fun n => decide (n < settings.diminishingReturnsMinEntities)) = true then
      { decision :=
          { reasoning := "Diminishing returns: recent iterations yielded few new entities. Moving to synthesis."
            nextAction := .generateReport
            searchQueries := []
            targetEntityIds := []
            currentPhase := .synthesis
            confidenceInCompleteness := st.overallConfidence
            gapsIdentified := [] }
        consecutiveFailures := failures
        llmCalled := false }
    else
      planViaLLM failures st llm

/-- A decision contains a query whose case-folded, trimmed form is already in
the state's search history. -/
def decisionRepeatsQuery (st : ResearchState) (d : DirectorDecision) : Bool :=
  d.searchQueries.any (fun q => (getSearchQueriesUsed st).contains (foldName q))

/-- C2 counterexample state: iteration 1, all three baseline fallback
candidates already in the search history. -/
def c2State : ResearchState :=
  { subject := { fullName := "Jane Doe", currentRole := some "CEO",
                 currentOrganization := some "Acme" }
    entities := []
    searchHistory := [⟨"Jane Doe Acme", "tavily"⟩,
                      ⟨"Jane Doe LinkedIn background", "tavily"⟩,
                      ⟨"Jane Doe biography", "tavily"⟩]
    currentPhase := .baseline
    iteration := 1
    maxIterations := 8
    entitiesAddedPerIteration := []
    overallConfidence := 0 }

/-- C2 witness state: same history, but iteration 2. -/
def c2StateW : ResearchState :=
  { c2State with iteration := 2 }

/-- C8 witness state: two recorded iteration yields below the minimum. -/
def c8State : ResearchState :=
  { subject := { fullName := "Jane Doe", currentRole := none,
                 currentOrganization := none }
    entities := []
    searchHistory := []
    currentPhase := .depth
    iteration := 3
    maxIterations := 8
    entitiesAddedPerIteration := [1, 0]
    overallConfidence := 2/5 }

-- ── Graph store (src/graph_db/neo4j_client.py) ──

/-- `RelationshipType` (src/models.py). -/
inductive RelationshipType where
  | worksAt
  | boardMemberOf
  | founded
  | investedIn
  | subsidiaryOf
  | relatedTo
  | knows
  | familyOf
  | suedBy
  | regulatedBy
  | mentionedIn
  | partnerOf
  | advisorTo
  | donorTo
  | previouslyAt
deriving DecidableEq

/-- `RelationshipType.value`. -/
def relationshipValue : RelationshipType → String
  | .worksAt => "WORKS_AT"
  | .boardMemberOf => "BOARD_MEMBER_OF"
  | .founded => "FOUNDED"
  | .investedIn => "INVESTED_IN"
  | .subsidiaryOf => "SUBSIDIARY_OF"
  | .relatedTo => "RELATED_TO"
  | .knows => "KNOWS"
  | .familyOf => "FAMILY_OF"
  | .suedBy => "SUED_BY"
  | .regulatedBy => "REGULATED_BY"
  | .mentionedIn => "MENTIONED_IN"
  | .partnerOf => "PARTNER_OF"
  | .advisorTo => "ADVISOR_TO"
  | .donorTo => "DONOR_TO"
  | .previouslyAt => "PREVIOUSLY_AT"

/-- `VALID_NODE_LABELS`. -/
def validNodeLabels : List String :=
  ["Person", "Organization", "Location", "Event", "Document",
   "FinancialInstrument", "Entity", "RiskFlag"]

/-- `VALID_REL_TYPES`. -/
def validRelTypes : List String :=
  ["WORKS_AT", "BOARD_MEMBER_OF", "FOUNDED", "INVESTED_IN", "SUBSIDIARY_OF",
   "RELATED_TO", "KNOWS", "FAMILY_OF", "SUED_BY", "REGULATED_BY",
   "MENTIONED_IN", "PARTNER_OF", "ADVISOR_TO", "DONOR_TO", "PREVIOUSLY_AT",
   "LOCATED_AT", "FLAGGED_FOR"]

/-- `_safe_label`. -/
def safeLabel (label : String) : String :=
  if validNodeLabels.contains label then label else "Entity"

/-- `_safe_rel_type`. -/
def safeRelType (rel : String) : String :=
  if validRelTypes.contains rel then rel else "RELATED_TO"

/-- `Neo4jClient._entity_type_to_label`. -/
def entityTypeToLabel : EntityType → String
  | .person => "Person"
  | .organization => "Organization"
  | .location => "Location"
  | .event => "Event"
  | .document => "Document"
  | .financialInstrument => "FinancialInstrument"

/-- `Connection` (src/models.py); the fields `persist_state` interpolates
through. -/
structure Connection where
  sourceEntityId : String
  targetEntityId : String
  relationshipType : RelationshipType
deriving DecidableEq

/-- A risk flag's id and affected entity ids (the fields `persist_state`
interpolates through). -/
structure RiskFlagInfo where
  id : String
  entityIds : List String
deriving DecidableEq

/-- `ResearchState.get_entity_by_id`. -/
def getEntityById (es : List Entity) (eid : String) : Option Entity :=
  es.find? (fun e => e.id == eid)

/-- Label tokens interpolated for one connection in `persist_state` (the
merge cypher and the provenance cypher each interpolate both endpoint
labels); connections with an unresolvable endpoint are skipped. -/
def connLabelTokens (es : List Entity) (c : Connection) : List String :=
  match getEntityById es c.sourceEntityId, getEntityById es c.targetEntityId with
  | some src, some tgt =>
    [safeLabel (entityTypeToLabel src.entityType),
     safeLabel (entityTypeToLabel tgt.entityType),
     safeLabel (entityTypeToLabel src.entityType),
     safeLabel (entityTypeToLabel tgt.entityType)]
  | _, _ => []

/-- Relationship tokens interpolated for one connection in `persist_state`. -/
def connRelTokens (es : List Entity) (c : Connection) : List String :=
  match getEntityById es c.sourceEntityId, getEntityById es c.targetEntityId with
  | some _, some _ =>
    [safeRelType (relationshipValue c.relationshipType),
     safeRelType (relationshipValue c.relationshipType)]
  | _, _ => []

/-- Label tokens interpolated for one risk flag: the literal `RiskFlag` node
label plus, per resolvable affected entity, its safe label. -/
def flagLabelTokens (es : List Entity) (f : RiskFlagInfo) : List String :=
  "RiskFlag" :: f.entityIds.filterMap
    (fun eid => (getEntityById es eid).map
      (fun e => safeLabel (entityTypeToLabel e.entityType)))

/-- Relationship tokens interpolated for one risk flag: a literal
`FLAGGED_FOR` per resolvable affected entity. -/
def flagRelTokens (es : List Entity) (f : RiskFlagInfo) : List String :=
  f.entityIds.filterMap
    (fun eid => (getEntityById es eid).map (fun _ => "FLAGGED_FOR"))

/-- All node-label tokens interpolated by `persist_state`. -/
def persistLabelTokens (es : List Entity) (cs : List Connection)
    (fs : List RiskFlagInfo) : List String :=
  es.map (fun e => safeLabel (entityTypeToLabel e.entityType)) ++
    (cs.map (connLabelTokens es)).flatten ++
    (fs.map (flagLabelTokens es)).flatten

/-- All relationship tokens interpolated by `persist_state`. -/
def persistRelTokens (es : List Entity) (cs : List Connection)
    (fs : List RiskFlagInfo) : List String :=
  (cs.map (connRelTokens es)).flatten ++ (fs.map (flagRelTokens es)).flatten

-- ── Tiered fetcher (src/tools/search.py) ──

/-- `FetchResult`. -/
structure FetchResult where
  content : Option String
  status : Option String
  inaccessibleReason : Option String
deriving DecidableEq

/-- Observable side effects of `_fetch_inner`: `record_fetch`,
`record_tier_escalation`, and `record_dead_domain` calls, in order. -/
inductive FetchEvent where
  | fetchRecorded (tier : Nat) (statusCode : String)
  | tierEscalation (fromTier toTier : Nat)
  | deadDomain (domain : String) (method : String)
deriving DecidableEq

/-- The oracle for one `_fetch_inner` run: the DNS pre-check result and the
results each tier / recovery helper would return for this URL. -/
structure FetchEnv where
  dnsResolves : Bool
  tier1 : FetchResult
  tier2 : FetchResult
  tier25 : FetchResult
  tier3 : FetchResult
  tier4 : FetchResult
  waybackRec : FetchResult
  relocated : Option FetchResult
deriving DecidableEq

/-- Python truthiness of an optional content string. -/
def contentTruthy : Option String → Bool
  | none => false
  | some s => s ≠ ""

/-- `r.status or ("ok" if r.content else "fail")` used for `record_fetch`. -/
def recStatus (r : FetchResult) : String :=
  match r.status with
  | some s => if s = "" then (if r.content.isSome then "ok" else "fail") else s
  | none => if r.content.isSome then "ok" else "fail"

/-- The `FetchResult` built when both recovery strategies fail. -/
def unrecoverableResult (domain : String) : FetchResult :=
  ⟨none, some "dead",
   some ("Domain " ++ domain ++ " no longer resolves (DNS failure). " ++
     "Wayback Machine and content-relocation recovery both failed.")⟩

/-- `TieredFetcher._recover_dead_url`: records `attempt`, tries the Wayback
helper, then the content-relocation search, and records exactly one outcome. -/
def recoverDeadUrl (env : FetchEnv) (domain : String) : FetchResult × List FetchEvent :=
  if env.waybackRec.content.isSome then
    (env.waybackRec,
     [FetchEvent.deadDomain domain "attempt", FetchEvent.deadDomain domain "wayback"])
  else
    match env.relocated with
    | some fr =>
      if contentTruthy fr.content then
        (fr, [FetchEvent.deadDomain domain "attempt",
              FetchEvent.deadDomain domain "relocated"])
      else
        (unrecoverableResult domain,
         [FetchEvent.deadDomain domain "attempt",
          FetchEvent.deadDomain domain "unrecoverable"])
    | none =>
      (unrecoverableResult domain,
       [FetchEvent.deadDomain domain "attempt",
        FetchEvent.deadDomain domain "unrecoverable"])

/-- The tier 2 → 2.5 → 3 → 4 escalation cascade shared by the bot-blocked
(403/429) and other-non-200 paths of `_fetch_inner`, with its fetch and
escalation events; ends with the most informative failure. -/
def escalateCascade (env : FetchEnv) (domain : String) (r : FetchResult) :
    FetchResult × List FetchEvent :=
  let e12 := FetchEvent.tierEscalation 1 2
  let f2 := FetchEvent.fetchRecorded 2 (recStatus env.tier2)
  if env.tier2.content.isSome then (env.tier2, [e12, f2])
  else
    let e23 := FetchEvent.tierEscalation 2 3
    let f25 := FetchEvent.fetchRecorded 3 (recStatus env.tier25)
    if env.tier25.content.isSome then (env.tier25, [e12, f2, e23, f25])
    else
      let e34 := FetchEvent.tierEscalation 3 4
      let f3 := FetchEvent.fetchRecorded 4 (recStatus env.tier3)
      if env.tier3.content.isSome then (env.tier3, [e12, f2, e23, f25, e34, f3])
      else
        let e45 := FetchEvent.tierEscalation 4 5
        let f4 := FetchEvent.fetchRecorded 5 (recStatus env.tier4)
        let evs := [e12, f2, e23, f25, e34, f3, e45, f4]
        if env.tier4.content.isSome then (env.tier4, evs)
        else if env.tier4.inaccessibleReason.isSome then (env.tier4, evs)
        else if env.tier3.inaccessibleReason.isSome then (env.tier3, evs)
        else if env.tier25.inaccessibleReason.isSome then (env.tier25, evs)
        else if env.tier2.inaccessibleReason.isSome then (env.tier2, evs)
        else if r.inaccessibleReason.isSome then (r, evs)
        else (r, evs)

/-- The reason string grafted onto a recovery result for a 404. -/
def recovered404Reason : String :=
  "Original URL returned 404 (content removed). Recovered via archive/relocation."

/-- `TieredFetcher._fetch_inner`: DNS pre-check routing to dead-URL recovery,
else tier 1 with the three-class failure taxonomy. -/
def fetchInner (env : FetchEnv) (domain hostname : String) :
    FetchResult × List FetchEvent :=
  if env.dnsResolves = false then
    recoverDeadUrl env hostname
  else
    let f1 := FetchEvent.fetchRecorded 1 (recStatus env.tier1)
    if env.tier1.content.isSome then (env.tier1, [f1])
    else if env.tier1.status = some "403" ∨ env.tier1.status = some "429" then
      let res := escalateCascade env domain env.tier1
      (res.1, f1 :: res.2)
    else if env.tier1.status = some "404" then
      let res := recoverDeadUrl env hostname
      let patched :=
        if contentTruthy res.1.content then
          { res.1 with inaccessibleReason := some recovered404Reason }
        else res.1
      (patched, f1 :: res.2)
    else
      let res := escalateCascade env domain env.tier1
      (res.1, f1 :: res.2)

/-- The recovery outcome the spec describes, as a function of which recovery
step returns content. -/
def deadRecoveryMethod (env : FetchEnv) : String :=
  if env.waybackRec.content.isSome then "wayback"
  else
    match env.relocated with
    | some fr => if contentTruthy fr.content then "relocated" else "unrecoverable"
    | none => "unrecoverable"

/-- Event is a `record_dead_domain` call (not a tier fetch or escalation). -/
def isDeadDomainEvent : FetchEvent → Bool
  | .deadDomain _ _ => true
  | _ => false

/-- C5 witness environment: dead DNS with a live Wayback snapshot. -/
def c5Env : FetchEnv :=
  { dnsResolves := false
    tier1 := ⟨none, some "error", some "unreachable"⟩
    tier2 := ⟨none, some "error", none⟩
    tier25 := ⟨none, some "skip", some "crawl4ai_disabled"⟩
    tier3 := ⟨none, some "skip", none⟩
    tier4 := ⟨none, some "error", none⟩
    waybackRec := ⟨some "archived page body", some "200", none⟩
    relocated := none }

-- ── Fact extractor JSON repair (src/agents/fact_extractor.py) ──
-- Python JSON values. Numbers are kept as exact decimal mantissa × 10^exp
-- as parsed from the literal (Python converts to int/float; no claim here
-- depends on numeric normalization). `jnan`/`jinf` mirror the non-standard
-- literals `NaN`, `Infinity`, `-Infinity` that `json.loads` accepts.

/-- A parsed JSON value. -/
inductive JValue where
  | jnull
  | jbool (b : Bool)
  | jnum (mant : Int) (exp10 : Int)
  | jnan
  | jinf (neg : Bool)
  | jstr (s : List Char)
  | jarr (xs : List JValue)
  | jobj (kvs : List (List Char × JValue))

/-- The value is a JSON object (a Python dict). -/
def JValue.isObj : JValue → Bool
  | .jobj _ => true
  | _ => false

/-- JSON whitespace (RFC 8259, as `json.loads` skips it). -/
def jWs (c : Char) : Bool :=
  c = ' ' || c = '\t' || c = '\n' || c = '\r'

/-- Skip JSON whitespace. -/
def skipWs (l : List Char) : List Char := l.dropWhile jWs

def isDigit (c : Char) : Bool := '0' ≤ c && c ≤ '9'

def hexVal (c : Char) : Option Nat :=
  let n := c.toNat
  if 48 ≤ n ∧ n ≤ 57 then some (n - 48)
  else if 97 ≤ n ∧ n ≤ 102 then some (n - 87)
  else if 65 ≤ n ∧ n ≤ 70 then some (n - 55)
  else none

/-- JSON string body after the opening quote: strict mode (control characters
rejected), the standard escapes, `\uXXXX` (surrogate pairing not modelled). -/
def parseStringBody : List Char → Option (List Char × List Char)
  | [] => none
  | c :: rest =>
    if c = '"' then some ([], rest)
    else if c = '\\' then
      match rest with
      | [] => none
      | e :: rest2 =>
        let unesc : Option Char :=
          if e = '"' then some '"'
          else if e = '\\' then some '\\'
          else if e = '/' then some '/'
          else if e = 'b' then some '\x08'
          else if e = 'f' then some '\x0c'
          else if e = 'n' then some '\n'
          else if e = 'r' then some '\r'
          else if e = 't' then some '\t'
          else none
        match unesc with
        | some u => (parseStringBody rest2).map (fun p => (u :: p.1, p.2))
        | none =>
          if e = 'u' then
            match rest2 with
            | h1 :: h2 :: h3 :: h4 :: rest3 =>
              match hexVal h1, hexVal h2, hexVal h3, hexVal h4 with
              | some a, some b, some c2, some d =>
                (parseStringBody rest3).map
                  (fun p => (Char.ofNat (((a * 16 + b) * 16 + c2) * 16 + d) :: p.1, p.2))
              | _, _, _, _ => none
            | _ => none
          else none
    else if c.toNat < 32 then none
    else (parseStringBody rest).map (fun p => (c :: p.1, p.2))

def digitsToNat (ds : List Char) : Nat :=
  ds.foldl (fun a c => a * 10 + (c.toNat - '0'.toNat)) 0

/-- JSON number grammar `-?(0|[1-9]\d*)(\.\d+)?([eE][-+]?\d+)?`, returning
(mantissa, decimal exponent). -/
def parseNumber (l : List Char) : Option ((Int × Int) × List Char) :=
  let neg := match l with | '-' :: _ => true | _ => false
  let l1 := match l with | '-' :: t => t | _ => l
  let intDigits := l1.takeWhile isDigit
  let r1 := l1.dropWhile isDigit
  if intDigits = [] then none
  else if 2 ≤ intDigits.length ∧ intDigits.head? = some '0' then none
  else
    let step2 : Option (List Char × List Char) :=
      match r1 with
      | '.' :: t =>
        if t.takeWhile isDigit = [] then none
        else some (t.takeWhile isDigit, t.dropWhile isDigit)
      | _ => some ([], r1)
    match step2 with
    | none => none
    | some (fracDigits, r2) =>
      let step3 : Option (Int × List Char) :=
        match r2 with
        | e :: t =>
          if e = 'e' ∨ e = 'E' then
            let eneg := match t with | '-' :: _ => true | _ => false
            let t1 := match t with | '+' :: t' => t' | '-' :: t' => t' | _ => t
            if t1.takeWhile isDigit = [] then none
            else
              some ((if eneg then -(digitsToNat (t1.takeWhile isDigit) : Int)
                     else (digitsToNat (t1.takeWhile isDigit) : Int)),
                    t1.dropWhile isDigit)
          else some (0, r2)
        | [] => some (0, [])
      match step3 with
      | none => none
      | some (ex, r3) =>
        let mant : Int := (digitsToNat (intDigits ++ fracDigits) : Int)
        some (((if neg then -mant else mant), ex - (fracDigits.length : Int)), r3)

/-- Python-dict member insertion: a duplicate key keeps its position, the
later value wins. -/
def objInsert (acc : List (List Char × JValue)) (k : List Char) (v : JValue) :
    List (List Char × JValue) :=
  if acc.any (fun p => p.1 == k) then
    acc.map (fun p => if p.1 == k then (k, v) else p)
  else acc ++ [(k, v)]

mutual

/-- One JSON value at the head of `l` (whitespace already skipped). -/
def parseValue : Nat → List Char → Option (JValue × List Char)
  | 0, _ => none
  | Nat.succ fuel, l =>
    match l with
    | '{' :: rest =>
      (match skipWs rest with
       | '}' :: r2 => some (JValue.jobj [], r2)
       | r => (parseMembers fuel r []).map (fun p => (JValue.jobj p.1, p.2)))
    | '[' :: rest =>
      (match skipWs rest with
       | ']' :: r2 => some (JValue.jarr [], r2)
       | r => (parseElements fuel r []).map (fun p => (JValue.jarr p.1, p.2)))
    | '"' :: rest => (parseStringBody rest).map (fun p => (JValue.jstr p.1, p.2))
    | 't' :: 'r' :: 'u' :: 'e' :: rest => some (JValue.jbool true, rest)
    | 'f' :: 'a' :: 'l' :: 's' :: 'e' :: rest => some (JValue.jbool false, rest)
    | 'n' :: 'u' :: 'l' :: 'l' :: rest => some (JValue.jnull, rest)
    | 'N' :: 'a' :: 'N' :: rest => some (JValue.jnan, rest)
    | 'I' :: 'n' :: 'f' :: 'i' :: 'n' :: 'i' :: 't' :: 'y' :: rest =>
      some (JValue.jinf false, rest)
    | '-' :: 'I' :: 'n' :: 'f' :: 'i' :: 'n' :: 'i' :: 't' :: 'y' :: rest =>
      some (JValue.jinf true, rest)
    | _ => (parseNumber l).map (fun p => (JValue.jnum p.1.1 p.1.2, p.2))

/-- Object members from the first key (whitespace already skipped). -/
def parseMembers : Nat → List Char →
    List (List Char × JValue) → Option (List (List Char × JValue) × List Char)
  | 0, _, _ => none
  | Nat.succ fuel, l, acc =>
    match l with
    | '"' :: rest =>
      (match parseStringBody rest with
       | none => none
       | some (key, r1) =>
         match skipWs r1 with
         | ':' :: r2 =>
           (match parseValue fuel (skipWs r2) with
            | none => none
            | some (v, r3) =>
              match skipWs r3 with
              | ',' :: r4 => parseMembers fuel (skipWs r4) (objInsert acc key v)
              | '}' :: r4 => some (objInsert acc key v, r4)
              | _ => none)
         | _ => none)
    | _ => none

/-- Array elements from the first element. -/
def parseElements : Nat → List Char → List JValue → Option (List JValue × List Char)
  | 0, _, _ => none
  | Nat.succ fuel, l, acc =>
    match parseValue fuel (skipWs l) with
    | none => none
    | some (v, r1) =>
      match skipWs r1 with
      | ',' :: r2 => parseElements fuel r2 (acc ++ [v])
      | ']' :: r2 => some (acc ++ [v], r2)
      | _ => none

end

/-- `json.loads`: parse one value, demand only whitespace after it. -/
def jsonLoads (l : List Char) : Option JValue :=
  match parseValue (l.length + 1) (skipWs l) with
  | some (v, rest) => if skipWs rest = [] then some v else none
  | none => none

/-- The anchored fence regex `^\s*`\x60`(?:json)?\s*\n?` of
`_strip_json_fences`: the backticks must follow the leading whitespace run,
and the greedy `\s*` then swallows all following whitespace. -/
def stripFence1 (l : List Char) : List Char :=
  match l.dropWhile pyWs with
  | '`' :: '`' :: '`' :: r2 =>
    (if startsWithL r2 ['j', 's', 'o', 'n'] then r2.drop 4 else r2).dropWhile pyWs
  | _ => l

/-- `cleaned.split("\x60\x60\x60")[0]`. -/
def takeUntilFence : List Char → List Char
  | [] => []
  | c :: t => if startsWithL (c :: t) ['`', '`', '`'] then [] else c :: takeUntilFence t

/-- `FactExtractionAgent._strip_json_fences`. -/
def stripJsonFences (raw : List Char) : List Char :=
  let c1 := pyStripL raw
  let c2 := takeUntilFence (stripFence1 c1)
  let c3 := pyStripL c2
  let c4 := match c3 with
    | '{' :: '{' :: t => '{' :: t
    | _ => c3
  match c4.reverse with
  | '}' :: '}' :: rrest => ('}' :: rrest).reverse
  | _ => c4

def dropToLineEnd (l : List Char) : List Char := l.dropWhile (fun c => c ≠ '\n')

/-- `re.sub(r"(?m)^\s*//.*$", "", text)`: a match can only start at a line
start, and since `/` is not whitespace the `//` must follow the maximal
whitespace run (which may span blank lines). -/
def stripLineCommentsGo : Nat → Bool → List Char → List Char
  | 0, _, l => l
  | _ + 1, _, [] => []
  | fuel + 1, true, l =>
    if startsWithL (l.dropWhile pyWs) ['/', '/'] then
      stripLineCommentsGo fuel false (dropToLineEnd ((l.dropWhile pyWs).drop 2))
    else
      match l with
      | [] => []
      | c :: t => c :: stripLineCommentsGo fuel (c = '\n') t
  | fuel + 1, false, c :: t => c :: stripLineCommentsGo fuel (c = '\n') t

/-- `re.sub(r",\s*//[^\n]*", ",", text)`. -/
def stripTrailingCommentsGo : Nat → List Char → List Char
  | 0, l => l
  | _ + 1, [] => []
  | fuel + 1, c :: t =>
    if c = ',' then
      if startsWithL (t.dropWhile pyWs) ['/', '/'] then
        ',' :: stripTrailingCommentsGo fuel (dropToLineEnd ((t.dropWhile pyWs).drop 2))
      else ',' :: stripTrailingCommentsGo fuel t
    else c :: stripTrailingCommentsGo fuel t

/-- `re.sub(r",\s*([}\]])", r"\1", text)`: single left-to-right pass. -/
def stripTrailingCommasGo : Nat → List Char → List Char
  | 0, l => l
  | _ + 1, [] => []
  | fuel + 1, c :: t =>
    if c = ',' then
      match t.dropWhile pyWs with
      | c2 :: t2 =>
        if c2 = '}' ∨ c2 = ']' then c2 :: stripTrailingCommasGo fuel t2
        else ',' :: stripTrailingCommasGo fuel t
      | [] => ',' :: stripTrailingCommasGo fuel t
    else c :: stripTrailingCommasGo fuel t

def isWordChar (c : Char) : Bool :=
  isDigit c || ('a' ≤ c && c ≤ 'z') || ('A' ≤ c && c ≤ 'Z') || c = '_'

/-- The right word boundary `\b` after a literal. -/
def boundaryNext (l : List Char) : Bool :=
  match l with
  | [] => true
  | c :: _ => !(isWordChar c)

/-- `re.sub(r"\bNaN\b", "null", text)`; tracks whether the previous input
character was a word character for the left boundary. -/
def replaceNaNGo : Nat → Bool → List Char → List Char
  | 0, _, l => l
  | _ + 1, _, [] => []
  | fuel + 1, prevWord, 'N' :: 'a' :: 'N' :: t =>
    if !prevWord && boundaryNext t then
      'n' :: 'u' :: 'l' :: 'l' :: replaceNaNGo fuel true t
    else 'N' :: replaceNaNGo fuel true ('a' :: 'N' :: t)
  | fuel + 1, _, c :: t => c :: replaceNaNGo fuel (isWordChar c) t

/-- `re.sub(r"-?Infinity\b", "null", text)`: no left boundary required. -/
def replaceInfinityGo : Nat → List Char → List Char
  | 0, l => l
  | _ + 1, [] => []
  | fuel + 1, '-' :: t =>
    if startsWithL t ['I', 'n', 'f', 'i', 'n', 'i', 't', 'y'] && boundaryNext (t.drop 8) then
      'n' :: 'u' :: 'l' :: 'l' :: replaceInfinityGo fuel (t.drop 8)
    else '-' :: replaceInfinityGo fuel t
  | fuel + 1, 'I' :: t =>
    if startsWithL t ['n', 'f', 'i', 'n', 'i', 't', 'y'] && boundaryNext (t.drop 7) then
      'n' :: 'u' :: 'l' :: 'l' :: replaceInfinityGo fuel (t.drop 7)
    else 'I' :: replaceInfinityGo fuel t
  | fuel + 1, c :: t => c :: replaceInfinityGo fuel t

/-- `FactExtractionAgent._sanitize_json`: the four regex passes in order. -/
def sanitizeJson (l : List Char) : List Char :=
  let a := stripLineCommentsGo (l.length + 1) true l
  let b := stripTrailingCommentsGo (a.length + 1) a
  let c := stripTrailingCommasGo (b.length + 1) b
  let d := replaceNaNGo (c.length + 1) false c
  replaceInfinityGo (d.length + 1) d

/-- State of the bracket/string-aware stack scan of `_parse_json`:
`endIdx = some (i+1)` when the stack first empties at index `i`; otherwise
the stack and in-string flag at the break / end of input. The Python stack
appends to the end and reverses to build the suffix, so this head-first
stack is already in suffix order. -/
structure BraceScan where
  endIdx : Option Nat
  stack : List Char
  inString : Bool

/-- The scanning loop of `_parse_json`, from absolute index `i`. -/
def braceScanGo : List Char → Nat → List Char → Bool → Bool → BraceScan
  | [], _, stack, inStr, _ => ⟨none, stack, inStr⟩
  | c :: t, i, stack, inStr, esc =>
    if esc then braceScanGo t (i + 1) stack inStr false
    else if c = '\\' ∧ inStr then braceScanGo t (i + 1) stack inStr true
    else if c = '"' ∧ ¬inStr then braceScanGo t (i + 1) stack true false
    else if c = '"' ∧ inStr then braceScanGo t (i + 1) stack false false
    else if inStr then braceScanGo t (i + 1) stack inStr false
    else if c = '{' then braceScanGo t (i + 1) ('}' :: stack) inStr false
    else if c = '[' then braceScanGo t (i + 1) (']' :: stack) inStr false
    else if c = '}' ∨ c = ']' then
      match stack with
      | [] => ⟨none, [], inStr⟩
      | top :: rest =>
        if top ≠ c then ⟨none, top :: rest, inStr⟩
        else if rest = [] then ⟨some (i + 1), [], inStr⟩
        else braceScanGo t (i + 1) rest inStr false
    else braceScanGo t (i + 1) stack inStr false

/-- The empty extraction `{"entities": [], "connections": [], "key_facts": []}`. -/
def emptyExtraction : JValue :=
  JValue.jobj [("entities".data, JValue.jarr []),
               ("connections".data, JValue.jarr []),
               ("key_facts".data, JValue.jarr [])]

/-- The short suffix completions tried in order: `]`, `}`, `]}`, `}]}`,
`}]}]}`. -/
def suffixCandidates : List (List Char) :=
  [[']'], ['}'], [']', '}'], ['}', ']', '}'], ['}', ']', '}', ']', '}']]

/-- Try each suffix completion in order, returning the first parse success. -/
def firstSuffixLoads (cleaned : List Char) : Option JValue :=
  suffixCandidates.findSome? (fun sfx => jsonLoads (cleaned ++ sfx))

/-- The final try/except of `_parse_json`: direct parse, suffix completions,
then the json-repair library (kept only when it returns a dict), else the
empty extraction. `repair` returning `none` models the library being
unavailable, raising, or the attempt failing. -/
def finishAttempts (repair : List Char → Option JValue) (cleaned : List Char) : JValue :=
  match jsonLoads cleaned with
  | some v => v
  | none =>
    match firstSuffixLoads cleaned with
    | some v => v
    | none =>
      match repair cleaned with
      | some v => if v.isObj then v else emptyExtraction
      | none => emptyExtraction

/-- The unbalanced-input branch of `_parse_json`: append best-guess closers
derived from the scan stack, with the two in-string pre-attempts. -/
def suffixBranchF (repair : List Char → Option JValue) (sanitized : List Char)
    (scan : BraceScan) : JValue :=
  if scan.inString then
    match jsonLoads (sanitized ++ '"' :: scan.stack) with
    | some v => v
    | none =>
      match jsonLoads (sanitized ++ ['"', ':', ' ', '"', '"'] ++ scan.stack) with
      | some v => v
      | none => finishAttempts repair (sanitized ++ '"' :: scan.stack)
  else finishAttempts repair (sanitized ++ scan.stack)

/-- `FactExtractionAgent._parse_json` on character lists. -/
def parseJsonF (repair : List Char → Option JValue) (raw : List Char) : JValue :=
  match jsonLoads (stripJsonFences raw) with
  | some v => v
  | none =>
    match jsonLoads (sanitizeJson (stripJsonFences raw)) with
    | some v => v
    | none =>
      match (sanitizeJson (stripJsonFences raw)).findIdx? (fun c => c = '{') with
      | none => emptyExtraction
      | some start =>
        match (braceScanGo ((sanitizeJson (stripJsonFences raw)).drop start)
            start [] false false).endIdx with
        | some e =>
          if start < e then
            finishAttempts repair
              (((sanitizeJson (stripJsonFences raw)).take e).drop start)
          else
            suffixBranchF repair (sanitizeJson (stripJsonFences raw))
              (braceScanGo ((sanitizeJson (stripJsonFences raw)).drop start)
                start [] false false)
        | none =>
          suffixBranchF repair (sanitizeJson (stripJsonFences raw))
            (braceScanGo ((sanitizeJson (stripJsonFences raw)).drop start)
              start [] false false)

/-- `_parse_json` on strings. -/
def parseJson (repair : List Char → Option JValue) (raw : String) : JValue :=
  parseJsonF repair raw.data

-- ═══════════════ Theorems ═══════════════

theorem foldName_empty : foldName "" = "" := by decide

theorem foldName_ne_empty_name {s : String} (h : foldName s ≠ "") : s ≠ "" := by
  intro hs
  exact h (hs ▸ foldName_empty)

theorem dictLookup_map_replace_ne (d : List (String × String)) (k v k' : String)
    (h : k' ≠ k) :
    dictLookup (d.map (fun p => if p.1 == k then (k, v) else p)) k' =
      dictLookup d k' := by
  induction d with
  | nil => rfl
  | cons p rest ih =>
    simp only [List.map_cons]
    by_cases hp : p.1 = k
    · rw [if_pos (by simp [hp])]
      have hnk : ¬((k == k') = true) := by
        simp only [beq_iff_eq]
        exact fun hc => h hc.symm
      have hnp : ¬((p.1 == k') = true) := by
        simp only [beq_iff_eq, hp]
        exact fun hc => h hc.symm
      simp only [dictLookup]
      rw [if_neg hnk, if_neg hnp]
      exact ih
    · rw [if_neg (by simp [hp])]
      simp only [dictLookup]
      by_cases hp' : p.1 = k'
      · rw [if_pos (by simp [hp']), if_pos (by simp [hp'])]
      · rw [if_neg (by simp [hp']), if_neg (by simp [hp'])]
        exact ih

theorem dictLookup_map_replace_self (d : List (String × String)) (k v : String)
    (h : d.any (fun p => p.1 == k) = true) :
    dictLookup (d.map (fun p => if p.1 == k then (k, v) else p)) k = some v := by
  induction d with
  | nil => simp at h
  | cons p rest ih =>
    simp only [List.map_cons]
    by_cases hp : p.1 = k
    · rw [if_pos (by simp [hp])]
      simp only [dictLookup]
      rw [if_pos (by simp)]
    · rw [if_neg (by simp [hp])]
      simp only [dictLookup]
      rw [if_neg (by simp [hp])]
      simp only [List.any_cons, Bool.or_eq_true, beq_iff_eq] at h
      rcases h with h | h
      · exact absurd h hp
      · exact ih (by simp only [List.any_eq_true]; simpa using h)

theorem dictLookup_append_single_self (d : List (String × String)) (k v : String)
    (h : d.any (fun p => p.1 == k) = false) :
    dictLookup (d ++ [(k, v)]) k = some v := by
  induction d with
  | nil => simp [dictLookup]
  | cons p rest ih =>
    simp only [List.any_cons, Bool.or_eq_false_iff] at h
    simp only [List.cons_append, dictLookup]
    rw [if_neg (by simp [h.1])]
    exact ih h.2

theorem dictLookup_append_single_ne (d : List (String × String)) (k v k' : String)
    (h : k' ≠ k) :
    dictLookup (d ++ [(k, v)]) k' = dictLookup d k' := by
  induction d with
  | nil =>
    simp only [List.nil_append, dictLookup]
    rw [if_neg (by simp only [beq_iff_eq]; exact fun hc => h hc.symm)]
  | cons p rest ih =>
    simp only [List.cons_append, dictLookup]
    by_cases hp : p.1 = k'
    · rw [if_pos (by simp [hp]), if_pos (by simp [hp])]
    · rw [if_neg (by simp [hp]), if_neg (by simp [hp])]
      exact ih

theorem dictLookup_dictInsert_self (d : List (String × String)) (k v : String) :
    dictLookup (dictInsert d k v) k = some v := by
  unfold dictInsert
  by_cases h : d.any (fun p => p.1 == k) = true
  · rw [if_pos h]
    exact dictLookup_map_replace_self d k v h
  · have h' : d.any (fun p => p.1 == k) = false := by
      cases hx : d.any (fun p => p.1 == k)
      · rfl
      · exact absurd hx h
    rw [if_neg (by simp [h'])]
    exact dictLookup_append_single_self d k v h'

theorem dictLookup_dictInsert_ne (d : List (String × String)) (k v k' : String)
    (h : k' ≠ k) :
    dictLookup (dictInsert d k v) k' = dictLookup d k' := by
  unfold dictInsert
  by_cases hany : d.any (fun p => p.1 == k) = true
  · rw [if_pos hany]
    exact dictLookup_map_replace_ne d k v k' h
  · have h' : d.any (fun p => p.1 == k) = false := by
      cases hx : d.any (fun p => p.1 == k)
      · rfl
      · exact absurd hx hany
    rw [if_neg (by simp [h'])]
    exact dictLookup_append_single_ne d k v k' h

theorem dictLookup_eq_none (d : List (String × String)) (k : String)
    (h : ∀ p ∈ d, p.1 ≠ k) : dictLookup d k = none := by
  induction d with
  | nil => rfl
  | cons p rest ih =>
    simp only [dictLookup]
    rw [if_neg (by simp only [beq_iff_eq]; exact h p (List.mem_cons_self _ _))]
    exact ih fun q hq => h q (List.mem_cons_of_mem _ hq)

theorem dictLookup_dictUpdate (a b : List (String × String)) (k : String)
    (hb : (b.map Prod.fst).Nodup) :
    dictLookup (dictUpdate a b) k =
      (dictLookup b k).orElse (fun _ => dictLookup a k) := by
  induction b generalizing a with
  | nil => simp [dictUpdate, dictLookup]
  | cons p rest ih =>
    obtain ⟨k1, v1⟩ := p
    simp only [List.map_cons, List.nodup_cons] at hb
    obtain ⟨hk1, hrest⟩ := hb
    have step : dictUpdate a ((k1, v1) :: rest) = dictUpdate (dictInsert a k1 v1) rest := rfl
    rw [step, ih _ hrest]
    by_cases hkk : k = k1
    · subst hkk
      have hlrest : dictLookup rest k = none :=
        dictLookup_eq_none rest k fun p hp hc =>
          hk1 (List.mem_map.mpr ⟨p, hp, hc⟩)
      have h2 : dictLookup ((k, v1) :: rest) k = some v1 := by
        simp only [dictLookup]
        rw [if_pos (by simp)]
      rw [hlrest, h2]
      exact dictLookup_dictInsert_self a k v1
    · have hbk : dictLookup ((k1, v1) :: rest) k = dictLookup rest k := by
        simp only [dictLookup]
        rw [if_neg (by simp only [beq_iff_eq]; exact fun hc => hkk hc.symm)]
      rw [hbk, dictLookup_dictInsert_ne a k1 v1 k hkk]

theorem findEntityByName_none_iff (es : List Entity) (n : String) :
    findEntityByName es n = none ↔
      ∀ x ∈ es, entityMatches (foldName n) x = false := by
  simp [findEntityByName, List.find?_eq_none]

theorem addEntity_of_no_match (es : List Entity) (e : Entity)
    (h : ∀ x ∈ es, entityMatches (foldName e.name) x = false) :
    addEntity es e = es ++ [e] := by
  induction es with
  | nil => rfl
  | cons ex rest ih =>
    have hex := h ex (List.mem_cons_self _ _)
    simp only [addEntity, hex, Bool.false_eq_true, if_false, List.cons_append]
    rw [ih fun x hx => h x (List.mem_cons_of_mem _ hx)]

theorem addEntity_append_match (es : List Entity) (ex e : Entity)
    (h : ∀ x ∈ es, entityMatches (foldName e.name) x = false)
    (hex : entityMatches (foldName e.name) ex = true) :
    addEntity (es ++ [ex]) e = es ++ [mergeEntity ex e] := by
  induction es with
  | nil => simp [addEntity, hex]
  | cons y rest ih =>
    have hy := h y (List.mem_cons_self _ _)
    simp only [List.cons_append, addEntity, hy, Bool.false_eq_true, if_false]
    exact congrArg (y :: ·) (ih fun x hx => h x (List.mem_cons_of_mem _ hx))

theorem entityMatches_of_fold_eq {n : String} (hne : n ≠ "") {x : Entity}
    (hx : foldName x.name = n) : entityMatches n x = true := by
  have hxname : x.name ≠ "" := by
    intro hc
    rw [hc, foldName_empty] at hx
    exact hne hx.symm
  simp [entityMatches, hxname, hx]

/-- C1 (amended), core statement. With `fuzzy_threshold = None`, adding two
entities with equal type and equal non-empty case-folded name to a state with
no prior match collapses them to one entity with max confidence, union
sources/aliases, and dict-update attributes. -/
theorem add_entity_exact_dedup
    (es : List Entity) (e1 e2 : Entity)
    (htype : e1.entityType = e2.entityType)
    (hname : foldName e1.name = foldName e2.name)
    (hne : foldName e1.name ≠ "")
    (hfresh : findEntityByName es e1.name = none)
    (hk2 : (e2.attributes.map Prod.fst).Nodup) :
    addEntity (addEntity es e1) e2 = es ++ [mergeEntity e1 e2] ∧
    countMatching (addEntity (addEntity es e1) e2) e1.entityType (foldName e1.name) = 1 ∧
    (mergeEntity e1 e2).confidence = max e1.confidence e2.confidence ∧
    (∀ u, u ∈ (mergeEntity e1 e2).sourceUrls ↔ u ∈ e1.sourceUrls ∨ u ∈ e2.sourceUrls) ∧
    (∀ a, a ∈ (mergeEntity e1 e2).aliases ↔ a ∈ e1.aliases ∨ a ∈ e2.aliases) ∧
    (∀ k, dictLookup (mergeEntity e1 e2).attributes k =
      (dictLookup e2.attributes k).orElse (fun _ => dictLookup e1.attributes k)) := by
  have hno : ∀ x ∈ es, entityMatches (foldName e1.name) x = false :=
    (findEntityByName_none_iff es e1.name).mp hfresh
  have hstep1 : addEntity es e1 = es ++ [e1] := addEntity_of_no_match es e1 hno
  have hno2 : ∀ x ∈ es, entityMatches (foldName e2.name) x = false := by
    rw [← hname]; exact hno
  have he1match : entityMatches (foldName e2.name) e1 = true :=
    entityMatches_of_fold_eq (hname ▸ hne) hname
  have hstep2 : addEntity (es ++ [e1]) e2 = es ++ [mergeEntity e1 e2] :=
    addEntity_append_match es e1 e2 hno2 he1match
  have hmain : addEntity (addEntity es e1) e2 = es ++ [mergeEntity e1 e2] := by
    rw [hstep1, hstep2]
  refine ⟨hmain, ?_, rfl, ?_, ?_, ?_⟩
  · rw [hmain]
    unfold countMatching
    rw [List.countP_append]
    have hzero : es.countP (fun x : Entity => x.entityType == e1.entityType &&
        foldName x.name == foldName e1.name) = 0 := by
      rw [List.countP_eq_zero]
      intro x hx hc
      simp only [Bool.and_eq_true, beq_iff_eq] at hc
      have htrue := entityMatches_of_fold_eq hne hc.2
      rw [hno x hx] at htrue
      simp at htrue
    rw [hzero, List.countP_cons]
    simp [mergeEntity]
  · intro u
    simp [mergeEntity, List.mem_dedup]
  · intro a
    simp [mergeEntity, List.mem_dedup]
  · intro k
    exact dictLookup_dictUpdate e1.attributes e2.attributes k hk2

/-- C1 witness: the dedup statement instantiated at two concrete organization
entities added to the empty state. -/
theorem add_entity_exact_dedup_witness :
    addEntity (addEntity [] c1wE1) c1wE2 = [mergeEntity c1wE1 c1wE2] ∧
    (mergeEntity c1wE1 c1wE2).confidence = max c1wE1.confidence c1wE2.confidence := by
  have h := add_entity_exact_dedup [] c1wE1 c1wE2 (by decide) (by decide) (by decide)
    rfl (by decide)
  exact ⟨h.1, h.2.2.1⟩

/-- C1 counterexample. The claim as stated fails in two ways: (a) when the
state already holds a same-named entity of a different type, both adds merge
into it and zero entities of the pair's own (type, name) remain; (b) on a
shared attribute key with different values, the survivor's attribute set is
not the union of the two attribute sets (the incoming value overwrites). -/
theorem add_entity_exact_dedup_cx :
    (c1xP1.entityType = c1xP2.entityType ∧
     foldName c1xP1.name = foldName c1xP2.name ∧
     countMatching (addEntity (addEntity [c1xOrg] c1xP1) c1xP2)
       c1xP1.entityType (foldName c1xP1.name) = 0) ∧
    (countMatching (addEntity (addEntity [] c1xP1) c1xP2)
       c1xP1.entityType (foldName c1xP1.name) = 1 ∧
     ("k", "1") ∈ c1xP1.attributes ∧
     (addEntity (addEntity [] c1xP1) c1xP2).map Entity.attributes = [[("k", "2")]]) := by
  decide

/-- C9 (amended): when `add_entity` collapses an incoming entity into an
existing one, the survivor's description is left unchanged (the code never
copies the incoming description, even when the survivor's is empty);
confidence becomes the max, sources and aliases are union-merged, and
attributes are merged with dict-update semantics. -/
theorem add_entity_merge_description (ex : Entity) (rest : List Entity) (e : Entity)
    (hmatch : entityMatches (foldName e.name) ex = true)
    (hk2 : (e.attributes.map Prod.fst).Nodup) :
    addEntity (ex :: rest) e = mergeEntity ex e :: rest ∧
    (mergeEntity ex e).description = ex.description ∧
    (mergeEntity ex e).confidence = max ex.confidence e.confidence ∧
    (∀ u, u ∈ (mergeEntity ex e).sourceUrls ↔ u ∈ ex.sourceUrls ∨ u ∈ e.sourceUrls) ∧
    (∀ a, a ∈ (mergeEntity ex e).aliases ↔ a ∈ ex.aliases ∨ a ∈ e.aliases) ∧
    (∀ k, dictLookup (mergeEntity ex e).attributes k =
      (dictLookup e.attributes k).orElse (fun _ => dictLookup ex.attributes k)) := by
  refine ⟨by simp [addEntity, hmatch], rfl, rfl, ?_, ?_, ?_⟩
  · intro u
    simp [mergeEntity, List.mem_dedup]
  · intro a
    simp [mergeEntity, List.mem_dedup]
  · intro k
    exact dictLookup_dictUpdate ex.attributes e.attributes k hk2

/-- C9 witness: merging a concrete incoming entity into a concrete survivor
with empty description. -/
theorem add_entity_merge_description_witness :
    addEntity [c9wEx] c9wE = [mergeEntity c9wEx c9wE] ∧
    (mergeEntity c9wEx c9wE).description = "" := by
  have h := add_entity_merge_description c9wEx [] c9wE (by decide) (by decide)
  exact ⟨h.1, h.2.1⟩

/-- C9 counterexample: the survivor's description stays empty even though the
incoming entity's description is non-empty, so the claimed
"description preserved if empty on survivor" behaviour does not exist; the
counterexample also shows the attribute overwrite on a shared key. -/
theorem add_entity_merge_description_cx :
    c9xA.description = "" ∧
    c9xB.description ≠ "" ∧
    (addEntity (addEntity [] c9xA) c9xB).map Entity.description = [""] ∧
    (addEntity (addEntity [] c9xA) c9xB).map Entity.attributes = [[("k", "2")]] := by
  decide

theorem addEntity_fold_names (es : List Entity) (e : Entity) :
    ((addEntity es e).map fun x => foldName x.name) =
        (es.map fun x => foldName x.name) ∨
      ((addEntity es e).map fun x => foldName x.name) =
        (es.map fun x => foldName x.name) ++ [foldName e.name] := by
  induction es with
  | nil => right; rfl
  | cons ex rest ih =>
    by_cases hm : entityMatches (foldName e.name) ex = true
    · left
      simp [addEntity, hm, mergeEntity]
    · have hm' : entityMatches (foldName e.name) ex = false := by
        cases hx : entityMatches (foldName e.name) ex
        · rfl
        · exact absurd hx hm
      simp only [addEntity, hm', Bool.false_eq_true, if_false, List.map_cons]
      rcases ih with ih | ih
      · left; rw [ih]
      · right; rw [ih]; rfl

/-- C10 (amended): exact dedup ignores the entity type — an incoming entity
is merged into the first existing entity whose (truthy) name or alias
case-folds to its name, with no comparison of entity types; and on states
whose entities all have non-empty names and pairwise-distinct case-folded
names, `add_entity` preserves that property, so such a state never holds two
entities — of different types or not — with the same case-folded name. The
proviso "truthy name" is necessary: an existing entity whose raw name is the
empty string is skipped by the name comparison. -/
theorem add_entity_type_blind :
    (∀ (ex e : Entity) (rest : List Entity),
        entityMatches (foldName e.name) ex = true →
        addEntity (ex :: rest) e = mergeEntity ex e :: rest) ∧
    (∀ (es : List Entity) (e : Entity),
        es.any (entityMatches (foldName e.name)) = true →
        (addEntity es e).length = es.length) ∧
    (∀ (es : List Entity) (e : Entity),
        (∀ x ∈ es, x.name ≠ "") →
        ((es.map fun x => foldName x.name).Nodup) →
        e.name ≠ "" →
        (∀ x ∈ addEntity es e, x.name ≠ "") ∧
          ((addEntity es e).map fun x => foldName x.name).Nodup) := by
  refine ⟨fun ex e rest hm => by simp [addEntity, hm], ?_, ?_⟩
  · intro es e h
    induction es with
    | nil => simp at h
    | cons ex rest ih =>
      by_cases hm : entityMatches (foldName e.name) ex = true
      · simp [addEntity, hm]
      · have hm' : entityMatches (foldName e.name) ex = false := by
          cases hx : entityMatches (foldName e.name) ex
          · rfl
          · exact absurd hx hm
        simp only [List.any_cons, hm', Bool.false_or] at h
        simp only [addEntity, hm', Bool.false_eq_true, if_false, List.length_cons]
        rw [ih h]
  · intro es e hnames hnodup hename
    induction es with
    | nil =>
      refine ⟨?_, by simp [addEntity]⟩
      intro x hx
      simp only [addEntity, List.mem_singleton] at hx
      rw [hx]
      exact hename
    | cons ex rest ih =>
      have hexname : ex.name ≠ "" := hnames ex (List.mem_cons_self _ _)
      simp only [List.map_cons, List.nodup_cons] at hnodup
      by_cases hm : entityMatches (foldName e.name) ex = true
      · constructor
        · intro x hx
          simp only [addEntity, hm, if_true, List.mem_cons] at hx
          rcases hx with hx | hx
          · rw [hx]; exact hexname
          · exact hnames x (List.mem_cons_of_mem _ hx)
        · simp only [addEntity, hm, if_true, List.map_cons, List.nodup_cons]
          exact ⟨hnodup.1, hnodup.2⟩
      · have hm' : entityMatches (foldName e.name) ex = false := by
          cases hx : entityMatches (foldName e.name) ex
          · rfl
          · exact absurd hx hm
        have ihr := ih (fun x hx => hnames x (List.mem_cons_of_mem _ hx)) hnodup.2
        constructor
        · intro x hx
          simp only [addEntity, hm', Bool.false_eq_true, if_false, List.mem_cons] at hx
          rcases hx with hx | hx
          · rw [hx]; exact hexname
          · exact ihr.1 x hx
        · simp only [addEntity, hm', Bool.false_eq_true, if_false, List.map_cons,
            List.nodup_cons]
          refine ⟨?_, ihr.2⟩
          have hfold : foldName ex.name ≠ foldName e.name := by
            intro hc
            have : entityMatches (foldName e.name) ex = true := by
              simp [entityMatches, hexname, hc]
            rw [hm'] at this
            simp at this
          rcases addEntity_fold_names rest e with hf | hf
          · rw [hf]
            exact hnodup.1
          · rw [hf]
            intro hc
            rcases List.mem_append.mp hc with hc | hc
            · exact hnodup.1 hc
            · rw [List.mem_singleton] at hc
              exact hfold hc

/-- C10 witness: a person entity and a same-named organization entity are
merged into one, despite the differing types. -/
theorem add_entity_type_blind_witness :
    addEntity [c10wEx] c10wE = [mergeEntity c10wEx c10wE] ∧
    (addEntity [c10wEx] c10wE).length = 1 ∧
    ((addEntity [c10wEx] c10wE).map fun x => foldName x.name).Nodup := by
  refine ⟨add_entity_type_blind.1 c10wEx c10wE [] (by decide),
    add_entity_type_blind.2.1 [c10wEx] c10wE (by decide),
    (add_entity_type_blind.2.2 [c10wEx] c10wE ?_ ?_ ?_).2⟩
  · intro x hx
    simp only [List.mem_singleton] at hx
    rw [hx]
    decide
  · decide
  · decide

/-- C10 counterexample: with empty raw names the merge does not happen, so the
state ends up holding two entities of different types whose case-folded names
are equal. -/
theorem add_entity_type_blind_cx :
    foldName c10xA.name = foldName c10xB.name ∧
    c10xA.entityType ≠ c10xB.entityType ∧
    (addEntity [c10xA] c10xB).length = 2 ∧
    ((addEntity [c10xA] c10xB).map fun x => foldName x.name) = ["", ""] := by
  decide

/-- C3: the pre-call budget check estimates the next call as input chars / 4
tokens at the provider's input rate plus 8000 assumed output chars (2000
tokens) at the output rate; it raises exactly when the budget is positive and
cumulative cost plus the estimate exceeds it; and for cumulative cost 0.009,
budget 0.01 and a 50 000-character input it raises for every provider. -/
theorem llm_budget_check :
    (∀ (p : ModelProvider) (inputLen : ℚ),
        estimateCost p inputLen 8000 =
          inputLen / 4 * (costPer1KInput p / 1000) + 2000 * (costPer1KOutput p / 1000)) ∧
    (∀ (b t inputLen : ℚ) (p : ModelProvider),
        checkBudgetRaises b t p inputLen =
          (decide (0 < b) && decide (b < t + estimateCost p inputLen 8000))) ∧
    (∀ p : ModelProvider, checkBudgetRaises (1/100) (9/1000) p 50000 = true) := by
  refine ⟨?_, ?_, ?_⟩
  · intro p inputLen
    unfold estimateCost
    ring
  · intro b t inputLen p
    unfold checkBudgetRaises
    by_cases hb : b ≤ 0
    · rw [if_pos hb]
      have hd : decide (0 < b) = false := by simp [not_lt.mpr hb]
      rw [hd, Bool.false_and]
    · rw [if_neg hb]
      have hd : decide (0 < b) = true := by simp [lt_of_not_le hb]
      rw [hd, Bool.true_and]
  · intro p
    have hb : ¬((1 : ℚ)/100 ≤ 0) := by norm_num
    cases p <;>
      (unfold checkBudgetRaises
       rw [if_neg hb]
       simp only [decide_eq_true_eq]
       norm_num [estimateCost, costPer1KInput, costPer1KOutput])

theorem if_chain_groups {α : Type} (g1 g2 g3 g4 : Bool) (t p : α) :
    (if g1 then t else if g2 then t else if g3 then p else if g4 then p else t) =
      (if g1 || g2 then t else if g3 || g4 then p else t) := by
  cases g1 <;> cases g2 <;> cases g3 <;> cases g4 <;> rfl

/-- C4 (amended): the classifier checks the transient markers first, so a
message is permanent exactly when it contains a permanent marker and none of
the transient markers; any message containing a transient marker is
transient, and a message containing no marker at all is transient. -/
theorem classify_error_amended (msg : String) :
    classifyError msg =
      (if hasTransientMarker (pyLower msg) then ErrClass.transient
       else if hasPermanentMarker (pyLower msg) then ErrClass.permanent
       else ErrClass.transient) := by
  unfold classifyError hasTransientMarker hasPermanentMarker
  exact if_chain_groups _ _ _ _ _ _

/-- C4 witness: the amended statement evaluated at a message containing both
a transient and a permanent marker. -/
theorem classify_error_amended_witness :
    classifyError "429 invalid api key" =
      (if hasTransientMarker (pyLower "429 invalid api key") then ErrClass.transient
       else if hasPermanentMarker (pyLower "429 invalid api key") then ErrClass.permanent
       else ErrClass.transient) :=
  classify_error_amended "429 invalid api key"

/-- C4 counterexample: a message containing "invalid" (which the claim says
is always classified permanent) that the code classifies transient, because
it also contains "429" and the transient checks run first. -/
theorem classify_error_cx :
    containsSub (pyLower "429 invalid api key") "invalid" = true ∧
    classifyError "429 invalid api key" = ErrClass.transient := by
  decide

theorem any_filter_not (l : List String) (r : String → Bool) :
    (l.filter (fun q => !(r q))).any r = false := by
  rw [List.any_eq_false]
  intro x hx
  have hrx := (List.mem_filter.mp hx).2
  simp only [Bool.not_eq_true'] at hrx
  simp [hrx]

theorem any_take_eq_false {α : Type} (l : List α) (r : α → Bool) (n : Nat)
    (h : l.any r = false) : (l.take n).any r = false := by
  rw [List.any_eq_false] at h ⊢
  intro x hx
  exact h x (List.take_subset n l hx)

theorem fallbackQueriesIter1_no_repeat (st : ResearchState)
    (h : ¬((baselineCandidates st).all
      (fun q => (getSearchQueriesUsed st).contains (foldName q)) = true)) :
    (fallbackQueriesIter1 st).any
      (fun q => (getSearchQueriesUsed st).contains (foldName q)) = false := by
  unfold fallbackQueriesIter1
  by_cases h2 : ((baselineCandidates st).filter
      (fun q => !((getSearchQueriesUsed st).contains (foldName q)))).take 2 = []
  · exfalso
    apply h
    have hfil : (baselineCandidates st).filter
        (fun q => !((getSearchQueriesUsed st).contains (foldName q))) = [] := by
      rcases List.take_eq_nil_iff.mp h2 with h' | h'
      · exact absurd h' (by norm_num)
      · exact h'
    rw [List.all_eq_true]
    intro x hx
    have hnx := List.filter_eq_nil_iff.mp hfil x hx
    simpa using hnx
  · rw [if_neg h2]
    exact any_take_eq_false _ _ 2 (any_filter_not _ _)

theorem fallbackLaterQueries_no_repeat (st : ResearchState) :
    (fallbackLaterQueries st).any
      (fun q => (getSearchQueriesUsed st).contains (foldName q)) = false := by
  unfold fallbackLaterQueries
  by_cases h1 : fallbackEntityQueries st = []
  · rw [if_pos h1]
    unfold fallbackKeywordQueries
    exact any_take_eq_false _ _ 2 (any_filter_not _ _)
  · rw [if_neg h1]
    unfold fallbackEntityQueries
    exact any_filter_not _ _

theorem fallback_no_repeat (st : ResearchState)
    (h : ¬(st.iteration ≤ 1 ∧
      (baselineCandidates st).all
        (fun q => (getSearchQueriesUsed st).contains (foldName q)) = true)) :
    decisionRepeatsQuery st (fallbackDecision st) = false := by
  unfold decisionRepeatsQuery fallbackDecision
  by_cases h1 : st.iteration ≤ 1
  · rw [if_pos h1]
    show (fallbackQueriesIter1 st).any
      (fun q => (getSearchQueriesUsed st).contains (foldName q)) = false
    exact fallbackQueriesIter1_no_repeat st (fun hall => h ⟨h1, hall⟩)
  · rw [if_neg h1]
    by_cases h2 : st.iteration ≥ st.maxIterations - 1
    · rw [if_pos h2]
      rfl
    · rw [if_neg h2]
      by_cases h3 : fallbackLaterQueries st = []
      · rw [if_pos h3]
        rfl
      · rw [if_neg h3]
        show (fallbackLaterQueries st).any
          (fun q => (getSearchQueriesUsed st).contains (foldName q)) = false
        exact fallbackLaterQueries_no_repeat st

/-- C2 (amended): no decision returned by `plan_next_step` — from the guard
clauses, the parsed LLM plan, or the deterministic fallback — contains a
query whose case-folded, trimmed form is already in the search history,
except in one situation: the iteration ≤ 1 fallback, when all three baseline
candidate queries are already used, returns the first baseline candidate and
thereby repeats it. -/
theorem director_no_query_repetition
    (settings : AgentSettings) (failures : Nat) (st : ResearchState) (llm : PlanOutcome)
    (h : ¬(st.iteration ≤ 1 ∧
      (baselineCandidates st).all
        (fun q => (getSearchQueriesUsed st).contains (foldName q)) = true)) :
    decisionRepeatsQuery st (planNextStep settings failures st llm).decision = false := by
  unfold planNextStep
  split_ifs with h1 h2 h3
  · simp [decisionRepeatsQuery]
  · simp [decisionRepeatsQuery]
  · simp [decisionRepeatsQuery]
  · cases llm with
    | success d =>
      simp only [planViaLLM]
      unfold decisionRepeatsQuery parseDecision
      exact any_take_eq_false _ _ 5 (any_filter_not _ _)
    | parseFailure =>
      simp only [planViaLLM]
      exact fallback_no_repeat st h
    | budgetExhausted msg =>
      simp [planViaLLM, decisionRepeatsQuery]
    | failure =>
      simp only [planViaLLM]
      exact fallback_no_repeat st h

/-- C2 witness: the amended statement at a concrete iteration-2 state whose
history holds all baseline candidates. -/
theorem director_no_query_repetition_witness :
    decisionRepeatsQuery c2StateW
      (planNextStep ⟨2, 2⟩ 0 c2StateW PlanOutcome.failure).decision = false :=
  director_no_query_repetition ⟨2, 2⟩ 0 c2StateW PlanOutcome.failure (by decide)

/-- C2 counterexample: at iteration 1 with all three baseline candidates
already used, the fallback decision repeats the first baseline query. -/
theorem director_no_query_repetition_cx :
    decisionRepeatsQuery c2State
      (planNextStep ⟨2, 2⟩ 0 c2State PlanOutcome.failure).decision = true ∧
    (planNextStep ⟨2, 2⟩ 0 c2State PlanOutcome.failure).decision.searchQueries =
      ["Jane Doe Acme"] := by
  decide

/-- C8: with lookback 2 and minimum 2, iteration below the limit and fewer
than 3 consecutive failures, if the last two recorded per-iteration entity
yields are each below 2 then `plan_next_step` returns GENERATE_REPORT with
phase synthesis, with no queries, without calling the LLM. -/
theorem director_diminishing_returns
    (settings : AgentSettings) (failures : Nat) (st : ResearchState) (llm : PlanOutcome)
    (hlb : settings.diminishingReturnsLookbackIterations = 2)
    (hmin : settings.diminishingReturnsMinEntities = 2)
    (hiter : st.iteration < st.maxIterations)
    (hfail : failures < 3)
    (hlen : 2 ≤ st.entitiesAddedPerIteration.length)
    (hrecent : (st.entitiesAddedPerIteration.drop
        (st.entitiesAddedPerIteration.length - 2)).all
        (fun n => decide (n < 2)) = true) :
    (planNextStep settings failures st llm).decision.nextAction =
        AgentAction.generateReport ∧
    (planNextStep settings failures st llm).decision.currentPhase =
        SearchPhase.synthesis ∧
    (planNextStep settings failures st llm).decision.searchQueries = [] ∧
    (planNextStep settings failures st llm).llmCalled = false := by
  have hcond : settings.diminishingReturnsLookbackIterations > 0 ∧
      (st.entitiesAddedPerIteration.length : Int) ≥
        settings.diminishingReturnsLookbackIterations ∧
      (st.entitiesAddedPerIteration.drop
          (st.entitiesAddedPerIteration.length -
            settings.diminishingReturnsLookbackIterations.toNat)).all
        (fun n => decide (n < settings.diminishingReturnsMinEntities)) = true := by
    rw [hlb, hmin]
    refine ⟨by norm_num, by exact_mod_cast hlen, ?_⟩
    simpa using hrecent
  unfold planNextStep
  rw [if_neg (not_le.mpr hiter), if_neg (not_le.mpr hfail), if_pos hcond]
  exact ⟨rfl, rfl, rfl, rfl⟩

theorem safeLabel_in_allowlist (s : String) :
    validNodeLabels.contains (safeLabel s) = true := by
  unfold safeLabel
  by_cases h : validNodeLabels.contains s = true
  · rw [if_pos h]
    exact h
  · rw [if_neg h]
    decide

theorem safeRelType_in_allowlist (s : String) :
    validRelTypes.contains (safeRelType s) = true := by
  unfold safeRelType
  by_cases h : validRelTypes.contains s = true
  · rw [if_pos h]
    exact h
  · rw [if_neg h]
    decide

theorem safeLabel_mem (s : String) : safeLabel s ∈ validNodeLabels := by
  have h := safeLabel_in_allowlist s
  simpa using h

theorem safeRelType_mem (s : String) : safeRelType s ∈ validRelTypes := by
  have h := safeRelType_in_allowlist s
  simpa using h

theorem connLabelTokens_allow (es : List Entity) (c : Connection) :
    (connLabelTokens es c).all (fun t => validNodeLabels.contains t) = true := by
  unfold connLabelTokens
  cases getEntityById es c.sourceEntityId <;>
    cases getEntityById es c.targetEntityId <;>
      simp [safeLabel_mem]

theorem connRelTokens_allow (es : List Entity) (c : Connection) :
    (connRelTokens es c).all (fun t => validRelTypes.contains t) = true := by
  unfold connRelTokens
  cases getEntityById es c.sourceEntityId <;>
    cases getEntityById es c.targetEntityId <;>
      simp [safeRelType_mem]

theorem flagLabelTokens_allow (es : List Entity) (f : RiskFlagInfo) :
    (flagLabelTokens es f).all (fun t => validNodeLabels.contains t) = true := by
  unfold flagLabelTokens
  rw [List.all_cons, Bool.and_eq_true]
  refine ⟨by decide, ?_⟩
  rw [List.all_eq_true]
  intro t ht
  rcases List.mem_filterMap.mp ht with ⟨eid, _, heq⟩
  rcases Option.map_eq_some'.mp heq with ⟨e, _, hfe⟩
  rw [← hfe]
  exact safeLabel_in_allowlist _

theorem flagRelTokens_allow (es : List Entity) (f : RiskFlagInfo) :
    (flagRelTokens es f).all (fun t => validRelTypes.contains t) = true := by
  unfold flagRelTokens
  rw [List.all_eq_true]
  intro t ht
  rcases List.mem_filterMap.mp ht with ⟨eid, _, heq⟩
  rcases Option.map_eq_some'.mp heq with ⟨e, _, hfe⟩
  rw [← hfe]
  decide

theorem all_flatten_of_parts {α : Type} (ls : List (List α)) (p : α → Bool)
    (h : ∀ l ∈ ls, l.all p = true) : ls.flatten.all p = true := by
  rw [List.all_eq_true]
  intro t ht
  rcases List.mem_flatten.mp ht with ⟨l, hl, htl⟩
  exact List.all_eq_true.mp (h l hl) t htl

/-- C7: the label lookup returns its argument exactly on the node-label
allowlist and `Entity` otherwise; the relationship lookup returns its
argument exactly on the relationship allowlist and `RELATED_TO` otherwise;
and every label or relationship token interpolated during persistence is a
member of the respective allowlist. -/
theorem graph_allowlisting :
    (∀ s : String,
        validNodeLabels.contains (safeLabel s) = true ∧
        (validNodeLabels.contains s = true → safeLabel s = s) ∧
        (validNodeLabels.contains s = false → safeLabel s = "Entity")) ∧
    (∀ s : String,
        validRelTypes.contains (safeRelType s) = true ∧
        (validRelTypes.contains s = true → safeRelType s = s) ∧
        (validRelTypes.contains s = false → safeRelType s = "RELATED_TO")) ∧
    (∀ (es : List Entity) (cs : List Connection) (fs : List RiskFlagInfo),
        (persistLabelTokens es cs fs).all
          (fun t => validNodeLabels.contains t) = true ∧
        (persistRelTokens es cs fs).all
          (fun t => validRelTypes.contains t) = true) := by
  refine ⟨?_, ?_, ?_⟩
  · intro s
    refine ⟨safeLabel_in_allowlist s, fun h => ?_, fun h => ?_⟩
    · unfold safeLabel
      rw [if_pos h]
    · unfold safeLabel
      rw [if_neg (by rw [h]; exact Bool.false_ne_true)]
  · intro s
    refine ⟨safeRelType_in_allowlist s, fun h => ?_, fun h => ?_⟩
    · unfold safeRelType
      rw [if_pos h]
    · unfold safeRelType
      rw [if_neg (by rw [h]; exact Bool.false_ne_true)]
  · intro es cs fs
    constructor
    · unfold persistLabelTokens
      rw [List.all_append, List.all_append, Bool.and_eq_true, Bool.and_eq_true]
      refine ⟨⟨?_, ?_⟩, ?_⟩
      · rw [List.all_eq_true]
        intro t ht
        rcases List.mem_map.mp ht with ⟨e, _, hfe⟩
        rw [← hfe]
        exact safeLabel_in_allowlist _
      · refine all_flatten_of_parts _ _ ?_
        intro l hl
        rcases List.mem_map.mp hl with ⟨c, _, hfc⟩
        rw [← hfc]
        exact connLabelTokens_allow es c
      · refine all_flatten_of_parts _ _ ?_
        intro l hl
        rcases List.mem_map.mp hl with ⟨f, _, hff⟩
        rw [← hff]
        exact flagLabelTokens_allow es f
    · unfold persistRelTokens
      rw [List.all_append, Bool.and_eq_true]
      refine ⟨?_, ?_⟩
      · refine all_flatten_of_parts _ _ ?_
        intro l hl
        rcases List.mem_map.mp hl with ⟨c, _, hfc⟩
        rw [← hfc]
        exact connRelTokens_allow es c
      · refine all_flatten_of_parts _ _ ?_
        intro l hl
        rcases List.mem_map.mp hl with ⟨f, _, hff⟩
        rw [← hff]
        exact flagRelTokens_allow es f

/-- C7 witness: the allowlisting statement evaluated at an allowlisted and a
non-allowlisted label and relationship. -/
theorem graph_allowlisting_witness :
    safeLabel "Person" = "Person" ∧
    safeLabel "Malicious]->(x) DETACH DELETE" = "Entity" ∧
    safeRelType "WORKS_AT" = "WORKS_AT" ∧
    safeRelType "EVIL_REL" = "RELATED_TO" :=
  ⟨(graph_allowlisting.1 "Person").2.1 (by decide),
   (graph_allowlisting.1 "Malicious]->(x) DETACH DELETE").2.2 (by decide),
   (graph_allowlisting.2.1 "WORKS_AT").2.1 (by decide),
   (graph_allowlisting.2.1 "EVIL_REL").2.2 (by decide)⟩

/-- C5: when DNS resolution fails, `_fetch_inner` emits no tier fetch or
escalation event at all; it records exactly `attempt` followed by one
outcome among `wayback`, `relocated`, `unrecoverable`, chosen by which
recovery step returned content, and returns that step's result. -/
theorem fetcher_dead_domain (env : FetchEnv) (domain hostname : String)
    (hdns : env.dnsResolves = false) :
    (fetchInner env domain hostname).2 =
      [FetchEvent.deadDomain hostname "attempt",
       FetchEvent.deadDomain hostname (deadRecoveryMethod env)] ∧
    (fetchInner env domain hostname).2.all isDeadDomainEvent = true ∧
    (env.waybackRec.content.isSome = true →
      deadRecoveryMethod env = "wayback" ∧
      (fetchInner env domain hostname).1 = env.waybackRec) ∧
    (∀ fr, env.waybackRec.content.isSome = false → env.relocated = some fr →
      contentTruthy fr.content = true →
      deadRecoveryMethod env = "relocated" ∧
      (fetchInner env domain hostname).1 = fr) ∧
    (deadRecoveryMethod env = "unrecoverable" →
      (fetchInner env domain hostname).1 = unrecoverableResult hostname) := by
  have hfi : fetchInner env domain hostname = recoverDeadUrl env hostname := by
    unfold fetchInner
    rw [hdns, if_pos rfl]
  rw [hfi]
  cases hw : env.waybackRec.content.isSome with
  | true =>
    have hm : deadRecoveryMethod env = "wayback" := by
      unfold deadRecoveryMethod
      rw [if_pos hw]
    have hrec : recoverDeadUrl env hostname =
        (env.waybackRec,
         [FetchEvent.deadDomain hostname "attempt",
          FetchEvent.deadDomain hostname "wayback"]) := by
      unfold recoverDeadUrl
      rw [if_pos hw]
    refine ⟨by rw [hrec, hm], by rw [hrec]; rfl, fun _ => ⟨hm, by rw [hrec]⟩,
      ?_, ?_⟩
    · intro fr hfalse
      exact absurd hfalse (by decide)
    · intro hu
      rw [hm] at hu
      exact absurd hu (by decide)
  | false =>
    have hwn : ¬(env.waybackRec.content.isSome = true) := by
      rw [hw]
      exact Bool.false_ne_true
    cases hr : env.relocated with
    | none =>
      have hm : deadRecoveryMethod env = "unrecoverable" := by
        unfold deadRecoveryMethod
        rw [if_neg hwn, hr]
      have hrec : recoverDeadUrl env hostname =
          (unrecoverableResult hostname,
           [FetchEvent.deadDomain hostname "attempt",
            FetchEvent.deadDomain hostname "unrecoverable"]) := by
        unfold recoverDeadUrl
        rw [if_neg hwn, hr]
      refine ⟨by rw [hrec, hm], by rw [hrec]; rfl, ?_, ?_, fun _ => by rw [hrec]⟩
      · intro hws
        exact absurd hws (by decide)
      · intro fr _ hfr
        cases hfr
    | some fr0 =>
      cases hct : contentTruthy fr0.content with
      | true =>
        have hm : deadRecoveryMethod env = "relocated" := by
          unfold deadRecoveryMethod
          rw [if_neg hwn, hr]
          dsimp only
          rw [if_pos hct]
        have hrec : recoverDeadUrl env hostname =
            (fr0,
             [FetchEvent.deadDomain hostname "attempt",
              FetchEvent.deadDomain hostname "relocated"]) := by
          unfold recoverDeadUrl
          rw [if_neg hwn, hr]
          dsimp only
          rw [if_pos hct]
        refine ⟨by rw [hrec, hm], by rw [hrec]; rfl, ?_, ?_, ?_⟩
        · intro hws
          exact absurd hws (by decide)
        · intro fr _ hfr hct'
          cases hfr
          exact ⟨hm, by rw [hrec]⟩
        · intro hu
          rw [hm] at hu
          exact absurd hu (by decide)
      | false =>
        have hm : deadRecoveryMethod env = "unrecoverable" := by
          unfold deadRecoveryMethod
          rw [if_neg hwn, hr]
          dsimp only
          rw [if_neg (by rw [hct]; exact Bool.false_ne_true)]
        have hrec : recoverDeadUrl env hostname =
            (unrecoverableResult hostname,
             [FetchEvent.deadDomain hostname "attempt",
              FetchEvent.deadDomain hostname "unrecoverable"]) := by
          unfold recoverDeadUrl
          rw [if_neg hwn, hr]
          dsimp only
          rw [if_neg (by rw [hct]; exact Bool.false_ne_true)]
        refine ⟨by rw [hrec, hm], by rw [hrec]; rfl, ?_, ?_, fun _ => by rw [hrec]⟩
        · intro hws
          exact absurd hws (by decide)
        · intro fr _ hfr hct'
          cases hfr
          rw [hct] at hct'
          exact absurd hct' (by decide)

/-- C5 witness: a dead-DNS environment with a live Wayback snapshot records
exactly attempt then wayback and returns the snapshot result. -/
theorem fetcher_dead_domain_witness :
    (fetchInner c5Env "unknown" "deadhost.com").2 =
      [FetchEvent.deadDomain "deadhost.com" "attempt",
       FetchEvent.deadDomain "deadhost.com" "wayback"] ∧
    (fetchInner c5Env "unknown" "deadhost.com").1 = c5Env.waybackRec := by
  have h := fetcher_dead_domain c5Env "unknown" "deadhost.com" rfl
  refine ⟨?_, (h.2.2.1 rfl).2⟩
  rw [h.1, (h.2.2.1 rfl).1]

theorem parseValue_obj (fuel : Nat) (l : List Char) (v : JValue) (rest : List Char)
    (hhead : l.head? = some '{')
    (h : parseValue fuel l = some (v, rest)) : v.isObj = true := by
  cases fuel with
  | zero =>
    rw [show parseValue 0 l = none from rfl] at h
    cases h
  | succ f =>
    cases l with
    | nil => cases hhead
    | cons c t =>
      have hc : c = '{' := by simpa using hhead
      subst hc
      have heq : parseValue (Nat.succ f) ('{' :: t) =
          (match skipWs t with
           | '}' :: r2 => some (JValue.jobj [], r2)
           | r => (parseMembers f r []).map (fun p => (JValue.jobj p.1, p.2))) := rfl
      rw [heq] at h
      split at h
      · simp only [Option.some.injEq, Prod.mk.injEq] at h
        rw [← h.1]
        rfl
      · rcases Option.map_eq_some'.mp h with ⟨p, _, hp⟩
        simp only [Prod.mk.injEq] at hp
        rw [← hp.1]
        rfl

theorem jsonLoads_obj (l : List Char) (v : JValue)
    (hhead : (skipWs l).head? = some '{')
    (h : jsonLoads l = some v) : v.isObj = true := by
  unfold jsonLoads at h
  cases hp : parseValue (l.length + 1) (skipWs l) with
  | none =>
    rw [hp] at h
    cases h
  | some pr =>
    obtain ⟨pv, prest⟩ := pr
    rw [hp] at h
    dsimp only at h
    by_cases hr : skipWs prest = []
    · rw [if_pos hr] at h
      have hpv : pv = v := by simpa using h
      subst hpv
      exact parseValue_obj _ _ _ _ hhead hp
    · rw [if_neg hr] at h
      cases h

theorem skipWs_cons_brace (t : List Char) : skipWs ('{' :: t) = '{' :: t := rfl

theorem skipWs_ws_append (pre z : List Char) (h : ∀ c ∈ pre, jWs c = true) :
    skipWs (pre ++ z) = skipWs z := by
  induction pre with
  | nil => rfl
  | cons c t ih =>
    have hc := h c (List.mem_cons_self _ _)
    simp only [List.cons_append, skipWs, List.dropWhile_cons, hc, if_true]
    exact ih fun x hx => h x (List.mem_cons_of_mem _ hx)

theorem skipWs_brace_append (pre z : List Char) (h : ∀ c ∈ pre, jWs c = true) :
    skipWs (pre ++ '{' :: z) = '{' :: z := by
  rw [skipWs_ws_append pre _ h]
  exact skipWs_cons_brace z

theorem exists_ws_brace_decomp (l : List Char)
    (h : (skipWs l).head? = some '{') :
    ∃ pre post, l = pre ++ '{' :: post ∧ (∀ c ∈ pre, jWs c = true) := by
  cases hsk : skipWs l with
  | nil =>
    rw [hsk] at h
    cases h
  | cons c z =>
    rw [hsk] at h
    have hc : c = '{' := by simpa using h
    subst hc
    refine ⟨l.takeWhile jWs, z, ?_, ?_⟩
    · conv_lhs => rw [← List.takeWhile_append_dropWhile (p := jWs) (l := l)]
      rw [show l.dropWhile jWs = skipWs l from rfl, hsk]
    · intro c hc
      exact List.mem_takeWhile_imp hc

theorem findIdx_brace_decomp (l : List Char) : ∀ (i n : Nat),
    l.findIdx? (fun c => c = '{') i = some n →
    ∃ pre post, l = pre ++ '{' :: post ∧ i + pre.length = n := by
  induction l with
  | nil =>
    intro i n h
    cases h
  | cons c t ih =>
    intro i n h
    rw [List.findIdx?_cons] at h
    by_cases hc : c = '{'
    · rw [if_pos (by simpa using hc)] at h
      refine ⟨[], t, by rw [hc]; rfl, ?_⟩
      simpa using Option.some.inj h
    · rw [if_neg (by simpa using hc)] at h
      obtain ⟨pre, post, hdec, hlen⟩ := ih (i + 1) n h
      refine ⟨c :: pre, post, by rw [List.cons_append, hdec], ?_⟩
      rw [List.length_cons]
      omega

theorem firstSuffixLoads_obj (cleaned : List Char) (v : JValue)
    (hx : ∀ sfx : List Char, (skipWs (cleaned ++ sfx)).head? = some '{')
    (h : firstSuffixLoads cleaned = some v) : v.isObj = true := by
  rcases List.exists_of_findSome?_eq_some h with ⟨sfx, _, hs⟩
  exact jsonLoads_obj _ _ (hx sfx) hs

theorem skipWs_append_head (cleaned : List Char)
    (hh : (skipWs cleaned).head? = some '{') :
    ∀ sfx : List Char, (skipWs (cleaned ++ sfx)).head? = some '{' := by
  intro sfx
  obtain ⟨pre, post, hdec, hpre⟩ := exists_ws_brace_decomp cleaned hh
  rw [hdec, List.append_assoc, List.cons_append, skipWs_brace_append pre _ hpre]
  rfl

theorem finishAttempts_obj_or_empty (repair : List Char → Option JValue)
    (cleaned : List Char) (hh : (skipWs cleaned).head? = some '{') :
    (finishAttempts repair cleaned).isObj = true ∨
      finishAttempts repair cleaned = emptyExtraction := by
  have hx := skipWs_append_head cleaned hh
  unfold finishAttempts
  cases h1 : jsonLoads cleaned with
  | some v =>
    left
    exact jsonLoads_obj _ _ hh h1
  | none =>
    cases h2 : firstSuffixLoads cleaned with
    | some v =>
      left
      exact firstSuffixLoads_obj cleaned v hx h2
    | none =>
      cases h3 : repair cleaned with
      | some v =>
        by_cases hov : v.isObj = true
        · left
          show (if v.isObj = true then v else emptyExtraction).isObj = true
          rw [if_pos hov]
          exact hov
        · right
          show (if v.isObj = true then v else emptyExtraction) = emptyExtraction
          rw [if_neg hov]
      | none =>
        right
        rfl

theorem finishAttempts_cases (repair : List Char → Option JValue)
    (cleaned : List Char) :
    (finishAttempts repair cleaned).isObj = true ∨
      finishAttempts repair cleaned = emptyExtraction ∨
      ∃ sfx : List Char,
        jsonLoads (cleaned ++ sfx) = some (finishAttempts repair cleaned) := by
  unfold finishAttempts
  cases h1 : jsonLoads cleaned with
  | some v =>
    refine Or.inr (Or.inr ⟨[], ?_⟩)
    rw [List.append_nil, h1]
  | none =>
    cases h2 : firstSuffixLoads cleaned with
    | some v =>
      rcases List.exists_of_findSome?_eq_some h2 with ⟨sfx, _, hs⟩
      exact Or.inr (Or.inr ⟨sfx, by rw [hs]⟩)
    | none =>
      cases h3 : repair cleaned with
      | some v =>
        by_cases hov : v.isObj = true
        · left
          show (if v.isObj = true then v else emptyExtraction).isObj = true
          rw [if_pos hov]
          exact hov
        · right
          left
          show (if v.isObj = true then v else emptyExtraction) = emptyExtraction
          rw [if_neg hov]
      | none =>
        exact Or.inr (Or.inl rfl)

theorem suffixBranchF_cases (repair : List Char → Option JValue)
    (sanitized : List Char) (scan : BraceScan) :
    (suffixBranchF repair sanitized scan).isObj = true ∨
      suffixBranchF repair sanitized scan = emptyExtraction ∨
      ∃ sfx : List Char,
        jsonLoads (sanitized ++ sfx) = some (suffixBranchF repair sanitized scan) := by
  unfold suffixBranchF
  by_cases hstr : scan.inString = true
  · rw [if_pos hstr]
    cases h1 : jsonLoads (sanitized ++ '"' :: scan.stack) with
    | some v =>
      exact Or.inr (Or.inr ⟨'"' :: scan.stack, by rw [h1]⟩)
    | none =>
      cases h2 : jsonLoads (sanitized ++ ['"', ':', ' ', '"', '"'] ++ scan.stack) with
      | some v =>
        refine Or.inr (Or.inr ⟨['"', ':', ' ', '"', '"'] ++ scan.stack, ?_⟩)
        rw [← List.append_assoc, h2]
      | none =>
        rcases finishAttempts_cases repair (sanitized ++ '"' :: scan.stack)
            with h | h | ⟨sfx, hs⟩
        · exact Or.inl h
        · exact Or.inr (Or.inl h)
        · refine Or.inr (Or.inr ⟨('"' :: scan.stack) ++ sfx, ?_⟩)
          rw [← List.append_assoc]
          exact hs
  · rw [if_neg hstr]
    rcases finishAttempts_cases repair (sanitized ++ scan.stack)
        with h | h | ⟨sfx, hs⟩
    · exact Or.inl h
    · exact Or.inr (Or.inl h)
    · refine Or.inr (Or.inr ⟨scan.stack ++ sfx, ?_⟩)
      rw [← List.append_assoc]
      exact hs

/-- C6 (amended): `_parse_json` is total: every result is a JSON object, the
empty extraction `\x7b"entities": [], "connections": [], "key_facts": []\x7d`,
the successful direct parse of the fence-stripped input, the successful direct
parse of its sanitized form, or the successful parse of the sanitized text
with a completion suffix appended to its end (the repair of unbalanced input
appends its closers to the whole sanitized text, not to the part from the
first opening brace, so this case too can produce a non-object); on the four
inputs named by the claim — a fenced valid object, an object truncated
mid-string in a key, an array truncated mid-element, and an object with a
trailing comma before the closing brace — it returns the expected object
without raising, for every repair-library oracle. -/
theorem parse_json_total :
    (∀ (repair : List Char → Option JValue) (raw : List Char),
      (parseJsonF repair raw).isObj = true ∨
      parseJsonF repair raw = emptyExtraction ∨
      jsonLoads (stripJsonFences raw) = some (parseJsonF repair raw) ∨
      jsonLoads (sanitizeJson (stripJsonFences raw)) = some (parseJsonF repair raw) ∨
      (∃ sfx : List Char,
        jsonLoads (sanitizeJson (stripJsonFences raw) ++ sfx) =
          some (parseJsonF repair raw))) ∧
    (∀ repair, parseJson repair
      "```json\n\x7b\"entities\": [], \"connections\": [], \"key_facts\": []\x7d\n```" =
      emptyExtraction) ∧
    (∀ repair, parseJson repair "\x7b\"entities\": [], \"key" =
      JValue.jobj [("entities".data, JValue.jarr []), ("key".data, JValue.jstr [])]) ∧
    (∀ repair, parseJson repair "\x7b\"entities\": [\"a\", \"b" =
      JValue.jobj [("entities".data,
        JValue.jarr [JValue.jstr ['a'], JValue.jstr ['b']])]) ∧
    (∀ repair, parseJson repair "\x7b\"entities\": [],\x7d" =
      JValue.jobj [("entities".data, JValue.jarr [])]) := by
  refine ⟨?_, fun _ => rfl, fun _ => rfl, fun _ => rfl, fun _ => rfl⟩
  intro repair raw
  cases h1 : jsonLoads (stripJsonFences raw) with
  | some v =>
    have hr : parseJsonF repair raw = v := by
      unfold parseJsonF
      rw [h1]
    refine Or.inr (Or.inr (Or.inl ?_))
    rw [hr]
  | none =>
    cases h2 : jsonLoads (sanitizeJson (stripJsonFences raw)) with
    | some v =>
      have hr : parseJsonF repair raw = v := by
        unfold parseJsonF
        rw [h1]
        dsimp only
        rw [h2]
      refine Or.inr (Or.inr (Or.inr (Or.inl ?_)))
      rw [hr]
    | none =>
      cases hfind : (sanitizeJson (stripJsonFences raw)).findIdx?
          (fun c => c = '{') with
      | none =>
        have hr : parseJsonF repair raw = emptyExtraction := by
          unfold parseJsonF
          rw [h1]
          dsimp only
          rw [h2]
          dsimp only
          rw [hfind]
        exact Or.inr (Or.inl hr)
      | some start =>
        obtain ⟨pre, post, hdec, hlen⟩ := findIdx_brace_decomp _ 0 start hfind
        have hstart : pre.length = start := by omega
        subst hstart
        have hr : parseJsonF repair raw =
            (match (braceScanGo ((sanitizeJson (stripJsonFences raw)).drop pre.length)
                pre.length [] false false).endIdx with
             | some e =>
               if pre.length < e then
                 finishAttempts repair
                   (((sanitizeJson (stripJsonFences raw)).take e).drop pre.length)
               else
                 suffixBranchF repair (sanitizeJson (stripJsonFences raw))
                   (braceScanGo ((sanitizeJson (stripJsonFences raw)).drop pre.length)
                     pre.length [] false false)
             | none =>
               suffixBranchF repair (sanitizeJson (stripJsonFences raw))
                 (braceScanGo ((sanitizeJson (stripJsonFences raw)).drop pre.length)
                   pre.length [] false false)) := by
          unfold parseJsonF
          rw [h1]
          dsimp only
          rw [h2]
          dsimp only
          rw [hfind]
        cases he : (braceScanGo ((sanitizeJson (stripJsonFences raw)).drop pre.length)
            pre.length [] false false).endIdx with
        | some e =>
          rw [he] at hr
          dsimp only at hr
          by_cases hlt : pre.length < e
          · rw [if_pos hlt] at hr
            have hsl : ((sanitizeJson (stripJsonFences raw)).take e).drop pre.length =
                '{' :: post.take (e - pre.length - 1) := by
              rw [List.drop_take, hdec, List.drop_left]
              have : e - pre.length = (e - pre.length - 1) + 1 := by omega
              rw [this]
              rfl
            have hh2 : (skipWs (((sanitizeJson (stripJsonFences raw)).take e).drop
                pre.length)).head? = some '{' := by
              rw [hsl]
              rfl
            rcases finishAttempts_obj_or_empty repair _ hh2 with h | h
            · exact Or.inl (hr ▸ h)
            · exact Or.inr (Or.inl (hr ▸ h))
          · rw [if_neg hlt] at hr
            rcases suffixBranchF_cases repair (sanitizeJson (stripJsonFences raw)) _
                with h | h | ⟨sfx, hs⟩
            · exact Or.inl (hr ▸ h)
            · exact Or.inr (Or.inl (hr ▸ h))
            · refine Or.inr (Or.inr (Or.inr (Or.inr ⟨sfx, ?_⟩)))
              rw [hr]
              exact hs
        | none =>
          rw [he] at hr
          dsimp only at hr
          rcases suffixBranchF_cases repair (sanitizeJson (stripJsonFences raw)) _
              with h | h | ⟨sfx, hs⟩
          · exact Or.inl (hr ▸ h)
          · exact Or.inr (Or.inl (hr ▸ h))
          · refine Or.inr (Or.inr (Or.inr (Or.inr ⟨sfx, ?_⟩)))
            rw [hr]
            exact hs

/-- C6 counterexample: `_parse_json` can return a value that is neither a
parsed dictionary nor the empty extraction: the direct parse of `[1, 2]`
returns a list, and the suffix-completion of the unbalanced `[\x7b` returns
the list `[\x7b\x7d]` even though neither the input nor its sanitized form
parses directly. -/
theorem parse_json_total_cx :
    parseJsonF (fun _ => none) "[1, 2]".data =
      JValue.jarr [JValue.jnum 1 0, JValue.jnum 2 0] ∧
    (parseJsonF (fun _ => none) "[1, 2]".data).isObj = false ∧
    emptyExtraction.isObj = true ∧
    parseJsonF (fun _ => none) "[1, 2]".data ≠ emptyExtraction ∧
    parseJsonF (fun _ => none) "[\x7b".data = JValue.jarr [JValue.jobj []] ∧
    jsonLoads (stripJsonFences "[\x7b".data) = none ∧
    jsonLoads (sanitizeJson (stripJsonFences "[\x7b".data)) = none := by
  refine ⟨rfl, rfl, rfl, ?_, rfl, rfl, rfl⟩
  intro h
  have h2 : (false : Bool) = true := congrArg JValue.isObj h
  cases h2

/-- C8 witness: the statement at a concrete state with yields [1, 0]. -/
theorem director_diminishing_returns_witness :
    (planNextStep ⟨2, 2⟩ 0 c8State PlanOutcome.failure).decision.nextAction =
        AgentAction.generateReport ∧
    (planNextStep ⟨2, 2⟩ 0 c8State PlanOutcome.failure).decision.currentPhase =
        SearchPhase.synthesis ∧
    (planNextStep ⟨2, 2⟩ 0 c8State PlanOutcome.failure).decision.searchQueries = [] ∧
    (planNextStep ⟨2, 2⟩ 0 c8State PlanOutcome.failure).llmCalled = false :=
  director_diminishing_returns ⟨2, 2⟩ 0 c8State PlanOutcome.failure rfl rfl
    (by decide) (by decide) (by decide) (by decide)

end Invest
